import Mathlib

/-!
# FunLocker: command handler and lock state machine

A shallow embedding of `src/device/FunLocker/src/main.cpp`.

* Strings are lists of characters.  A `std::string` may hold NUL bytes; the C
  string functions (`strcmp`, `strncmp`, `atoi`, `strncpy`) see only the bytes
  before the first NUL, which `c_str` computes.
* `int` is a 32-bit two's-complement integer: products are wrapped by `wrap32`.
* The globals of the sketch are the fields of `State`.  Everything the sketch
  sends out (characteristic notifications, stepper moves, buzzer writes, delays,
  writes to the preference store) is appended to `State.trace` in program order.
* `Serial` output and the construction of the BLE server are left out: they
  neither read nor write any modelled variable.
* Two pieces of memory that the NEWPIN branch reads without having written them
  are parameters (`Mem`): the byte `temp[4]` of the local buffer, and the bytes
  that lie behind the terminator of the input.
-/

namespace FunLocker

/-! ## C strings -/

/-- The NUL byte that terminates a C string. -/
def NUL : Char := Char.ofNat 0

/-- The C string held by a buffer: the bytes before the first NUL. -/
def c_str (s : List Char) : List Char := s.takeWhile (fun c => c != NUL)

/-- Test `strcmp(a, b) == 0` on two C strings. -/
def strcmp (a b : List Char) : Bool := decide (a = b)

/-- Test `strncmp(a, b, n) == 0` on two C strings: the first `n` characters
agree, where a string shorter than `n` must agree up to and including its end. -/
def strncmp (a b : List Char) (n : Nat) : Bool := decide (a.take n = b.take n)

/-- The C locale `isspace`: space, `\t`, `\n`, `\v`, `\f`, `\r`. -/
def isspace (c : Char) : Bool :=
  c.toNat = 32 || (9 ≤ c.toNat && c.toNat ≤ 13)

/-- The C `isdigit`. -/
def isdigit (c : Char) : Bool := 48 ≤ c.toNat && c.toNat ≤ 57

/-- Lower bound of `int`. -/
def INT_MIN : Int := -2147483648

/-- Upper bound of `int`. -/
def INT_MAX : Int := 2147483647

/-- Saturation of `strtol` (with a 32-bit `long`) on values out of range. -/
def clampInt (x : Int) : Int :=
  if x < INT_MIN then INT_MIN else if INT_MAX < x then INT_MAX else x

/-- The value of a run of decimal digits, most significant first. -/
def digitsValue (ds : List Char) : Nat :=
  ds.foldl (fun acc c => acc * 10 + (c.toNat - 48)) 0

/-- The C `atoi` (`(int) strtol(s, NULL, 10)`): skip white space, read an
optional sign, then read digits up to the first character that is not one.
No digits give 0. -/
def atoi (s : List Char) : Int :=
  let s1 := s.dropWhile isspace
  match s1 with
  | '-' :: t => clampInt (-(digitsValue (t.takeWhile isdigit) : Int))
  | '+' :: t => clampInt (digitsValue (t.takeWhile isdigit) : Int)
  | _ => clampInt (digitsValue (s1.takeWhile isdigit) : Int)

/-- Result of an `int` operation whose mathematical value is `x`. -/
def wrap32 (x : Int) : Int := (x + 2147483648) % 4294967296 - 2147483648

/-- The characters `strncpy(temp, src, 4)` writes to `temp[0..3]`: the C string
at `src` cut to 4 characters, padded with NUL to 4. -/
def strncpy4 (src : List Char) : List Char :=
  let t := c_str (src.take 4)
  t ++ List.replicate (4 - t.length) NUL

/-! ## Preference store -/

/-- A typed value of the preference store. -/
inductive PrefValue where
  | str (v : List Char)
  | int (v : Int)
  | bool (v : Bool)
  deriving DecidableEq, Repr

/-- One entry of the store: namespace, key, value. -/
structure PrefEntry where
  ns : String
  key : String
  val : PrefValue
  deriving DecidableEq, Repr

/-- The persistent store behind `Preferences`. -/
abbrev Preferences := List PrefEntry

/-- Look a key up in a namespace. -/
def Preferences.lookup (p : Preferences) (ns key : String) : Option PrefValue :=
  (p.find? (fun e => e.ns == ns && e.key == key)).map (fun e => e.val)

/-- Write a key in a namespace (`begin(ns); putX(key, v); end()`). -/
def Preferences.put (p : Preferences) (ns key : String) (v : PrefValue) : Preferences :=
  ⟨ns, key, v⟩ :: p.filter (fun e => !(e.ns == ns && e.key == key))

/-- Read a string, `dflt` when the key is missing. -/
def Preferences.getString (p : Preferences) (ns key : String) (dflt : List Char) : List Char :=
  match p.lookup ns key with
  | some (.str v) => v
  | _ => dflt

/-- Read an int, `dflt` when the key is missing. -/
def Preferences.getInt (p : Preferences) (ns key : String) (dflt : Int) : Int :=
  match p.lookup ns key with
  | some (.int v) => v
  | _ => dflt

/-- Read a bool, `dflt` when the key is missing. -/
def Preferences.getBool (p : Preferences) (ns key : String) (dflt : Bool) : Bool :=
  match p.lookup ns key with
  | some (.bool v) => v
  | _ => dflt

/-! ## State and outputs -/

/-- What the sketch sends to the outside, in program order. -/
inductive Event where
  /-- Acknowledgement sent by `updateRequestCharacteristic(v)`. -/
  | request (v : String)
  /-- Status announced by `updateStatusCharacteristic(v)`. -/
  | status (v : String)
  /-- Stepper move `myStepper.step(n)`. -/
  | step (n : Int)
  /-- Buzzer write `digitalWrite(BUZZER_PIN, high)`. -/
  | buzzer (high : Bool)
  /-- Pause `delay(ms)`. -/
  | delay (ms : Nat)
  /-- Call of `powerOffServo()`. -/
  | powerOffServo
  /-- A write to the preference store. -/
  | put (ns key : String) (v : PrefValue)
  deriving DecidableEq, Repr

/-- The globals of the sketch, the preference store and the output so far. -/
structure State where
  isLocked : Bool
  unlockRequested : Bool
  lockRequested : Bool
  cwAdjustmentRequested : Bool
  ccwAdjustmentRequested : Bool
  rotations : Int
  currentPin : List Char
  deviceName : List Char
  preferences : Preferences
  trace : List Event
  deriving DecidableEq, Repr

/-- Memory the NEWPIN branch reads but the program never wrote. -/
structure Mem where
  /-- Content of `temp[4]`, which `strncpy(temp, .., 4)` leaves untouched. -/
  temp4 : Char
  /-- Bytes lying behind the terminator of the input buffer. -/
  past : List Char
  deriving DecidableEq, Repr

/-- Steps of one revolution: `const int stepsPerRevolution = 2048;` -/
def stepsPerRevolution : Int := 2048

/-- Append outputs to the trace. -/
def State.emit (s : State) (es : List Event) : State :=
  { s with trace := s.trace ++ es }

/-- Function `updateStoredStatus`: write `isLocked` to key `locked` of namespace
`funlocker`. -/
def updateStoredStatus (s : State) : State :=
  { s with
    preferences := s.preferences.put "funlocker" "locked" (.bool s.isLocked)
    trace := s.trace ++ [.put "funlocker" "locked" (.bool s.isLocked)] }

/-- The status announced for a resolved lock state. -/
def resolvedStatus (locked : Bool) : String := if locked then "LOCKED" else "UNLOCKED"

/-! ## Command strings -/

def sLOCK : List Char := ['L', 'O', 'C', 'K']
def sUNLOCK : List Char := ['-', 'U', 'N', 'L', 'O', 'C', 'K']
def sNEWPIN : List Char := ['-', 'N', 'E', 'W', 'P', 'I', 'N', '-']
def sCW : List Char := ['-', 'C', 'W']
def sCCW : List Char := ['-', 'C', 'C', 'W']
def sFLIP : List Char := ['-', 'F', 'L', 'I', 'P']
def sROTATION : List Char := ['R', 'O', 'T', 'A', 'T', 'I', 'O', 'N', '-']
def sNAME : List Char := ['N', 'A', 'M', 'E', '-']

/-- The C string read from `temp` after `strncpy(temp, &value[12], 4);
temp[5] = 0`: bytes 0..3 come from the input (and, when the input is shorter
than 12, from the memory behind it), byte 4 is whatever the stack held, and the
NUL written at index 5 ends the string at the latest. -/
def newPinTemp (m : Mem) (value : List Char) : List Char :=
  c_str (strncpy4 ((value ++ NUL :: m.past).drop 12) ++ [m.temp4])

/-- Method `BTCallbacks::onWrite`: handle one inbound write. -/
def onWrite (m : Mem) (value : List Char) (s : State) : State :=
  let openCommand := s.currentPin ++ sUNLOCK
  let newPinCommand := s.currentPin ++ sNEWPIN
  let cwCommand := s.currentPin ++ sCW
  let ccwCommand := s.currentPin ++ sCCW
  let flipStatusCommand := s.currentPin ++ sFLIP
  if value.length > 0 then
    if strcmp (c_str value) sLOCK then
      { s with lockRequested := true, trace := s.trace ++ [.request "READY"] }
    else if strcmp (c_str value) (c_str openCommand) then
      { s with unlockRequested := true, trace := s.trace ++ [.request "READY"] }
    else if strcmp (c_str value) (c_str cwCommand) then
      { s with cwAdjustmentRequested := true, trace := s.trace ++ [.request "READY"] }
    else if strcmp (c_str value) (c_str ccwCommand) then
      { s with ccwAdjustmentRequested := true, trace := s.trace ++ [.request "READY"] }
    else if strcmp (c_str value) (c_str flipStatusCommand) then
      updateStoredStatus
        { s with
          isLocked := !s.isLocked
          trace := s.trace ++ [.status (resolvedStatus (!s.isLocked)), .request "READY"] }
    else if strncmp (c_str value) (c_str newPinCommand) 12 then
      let temp := newPinTemp m value
      { s with
        preferences := s.preferences.put "funcooker" "pin" (.str temp)
        currentPin := temp
        trace := s.trace ++ [.put "funcooker" "pin" (.str temp), .request "READY"] }
    else if strncmp (c_str value) sROTATION 9 then
      let newRotations := atoi ((c_str value).drop 9)
      { s with
        rotations := newRotations
        preferences := s.preferences.put "funcooker" "rotations" (.int newRotations)
        trace := s.trace ++ [.put "funcooker" "rotations" (.int newRotations), .request "READY"] }
    else if strncmp (c_str value) sNAME 5 then
      let namePart := (c_str value).drop 5
      { s with
        preferences := s.preferences.put "funcooker" "name" (.str namePart)
        trace := s.trace ++ [.put "funcooker" "name" (.str namePart), .request "READY"] }
    else
      { s with trace := s.trace ++ [.request "ERROR"] }
  else s

/-- Whether `onWrite` takes the NEWPIN branch on this input. -/
def takesNewPinBranch (value : List Char) (s : State) : Bool :=
  decide (value.length > 0) &&
  !strcmp (c_str value) sLOCK &&
  !strcmp (c_str value) (c_str (s.currentPin ++ sUNLOCK)) &&
  !strcmp (c_str value) (c_str (s.currentPin ++ sCW)) &&
  !strcmp (c_str value) (c_str (s.currentPin ++ sCCW)) &&
  !strcmp (c_str value) (c_str (s.currentPin ++ sFLIP)) &&
  strncmp (c_str value) (c_str (s.currentPin ++ sNEWPIN)) 12

/-- Whether `onWrite` reads a byte behind the terminator of the input: the
NEWPIN branch evaluates `&value[12]` and `strncpy` reads from there, which is
inside the buffer (terminator included) only when the input has at least 12
bytes. -/
def readsPastInput (value : List Char) (s : State) : Bool :=
  takesNewPinBranch value s && decide (value.length < 12)

/-! ## Start-up -/

/-- Function `initLock`: load the configuration from namespace `funcooker`. -/
def initLock (s : State) : State :=
  let p := s.preferences
  let currentPin := p.getString "funcooker" "pin" s.currentPin
  let deviceName := p.getString "funcooker" "name" s.deviceName
  let rotations := p.getInt "funcooker" "rotations" s.rotations
  let isLocked := p.getBool "funcooker" "locked" false
  { s with
    currentPin := currentPin
    deviceName := deviceName
    rotations := rotations
    isLocked := isLocked
    unlockRequested := false
    lockRequested := false }

/-- The globals as the program image initialises them, over a given store. -/
def initialState (p : Preferences) : State :=
  { isLocked := false
    unlockRequested := false
    lockRequested := false
    cwAdjustmentRequested := false
    ccwAdjustmentRequested := false
    rotations := 11
    currentPin := ['1', '1', '1', '1']
    deviceName := ['F', 'u', 'n', 'l', 'o', 'c', 'k', 'e', 'r']
    preferences := p
    trace := [] }

/-- Function `setup`: buzzer low, `initLock`, then announce the restored state and
acknowledge READY. -/
def setup (s : State) : State :=
  let s := s.emit [.buzzer false]
  let s := initLock s
  s.emit [.status (resolvedStatus s.isLocked), .request "READY"]

/-- A restart: fresh globals, the same store, then `setup`. -/
def boot (p : Preferences) : State := setup (initialState p)

/-! ## Actuation -/

/-- Function `adjust(isCCW)`: one revolution in either direction. -/
def adjust (isCCW : Bool) (s : State) : State :=
  let s :=
    if isCCW then
      s.emit [.status "ADJUSTING", .step (wrap32 (-stepsPerRevolution * 1)),
        .request "READY", .powerOffServo]
    else
      s.emit [.status "ADJUSTING", .step (wrap32 (stepsPerRevolution * 1)),
        .request "READY", .powerOffServo]
  s.emit [.status (resolvedStatus s.isLocked)]

/-- Function `unlock`: turn back `rotations` revolutions when locked. -/
def unlock (s : State) : State :=
  if s.isLocked then
    let s := s.emit [.buzzer true, .delay 200, .buzzer false, .status "UNLOCKING",
      .step (wrap32 (-stepsPerRevolution * s.rotations))]
    let s := { s with isLocked := false }
    let s := s.emit [.status "UNLOCKED", .request "READY",
      .buzzer true, .delay 200, .buzzer false, .delay 200, .buzzer true, .delay 200,
      .buzzer false, .powerOffServo]
    updateStoredStatus s
  else s

/-- Function `lock`: turn `rotations` revolutions when not locked. -/
def lock (s : State) : State :=
  if !s.isLocked then
    let s := s.emit [.buzzer true, .delay 200, .buzzer false, .status "LOCKING",
      .step (wrap32 (stepsPerRevolution * s.rotations))]
    let s := { s with isLocked := true }
    let s := s.emit [.status "LOCKED", .request "READY",
      .buzzer true, .delay 500, .buzzer false, .delay 500, .buzzer true, .delay 500,
      .buzzer false, .powerOffServo]
    updateStoredStatus s
  else s

/-- Function `loop`: one polling cycle. -/
def loop (s : State) : State :=
  let s := if s.unlockRequested then { unlock s with unlockRequested := false } else s
  let s := if s.lockRequested then { lock s with lockRequested := false } else s
  let s := if s.cwAdjustmentRequested then
    { adjust false s with cwAdjustmentRequested := false } else s
  let s := if s.ccwAdjustmentRequested then
    { adjust true s with ccwAdjustmentRequested := false } else s
  s

/-- The moves sent to the stepper, in order. -/
def stepsOf : List Event → List Int
  | [] => []
  | .step n :: es => n :: stepsOf es
  | _ :: es => stepsOf es

/-- The statuses announced, in order. -/
def statusesOf : List Event → List String
  | [] => []
  | .status v :: es => v :: statusesOf es
  | _ :: es => statusesOf es

/-- The acknowledgements sent, in order. -/
def requestsOf : List Event → List String
  | [] => []
  | .request v :: es => v :: requestsOf es
  | _ :: es => requestsOf es

/-- The store writes, in order. -/
def putsOf : List Event → List (String × String × PrefValue)
  | [] => []
  | .put ns key v :: es => (ns, key, v) :: putsOf es
  | _ :: es => putsOf es



/-! ## Vocabulary of the statements -/

/-- No NUL byte occurs in the string. -/
def NulFree (l : List Char) : Prop := ∀ c ∈ l, c ≠ NUL

instance (l : List Char) : Decidable (NulFree l) := by
  unfold NulFree; infer_instance

/-- The suffixes that follow the PIN in the PIN-gated commands of the grammar:
`-UNLOCK`, `-CW`, `-CCW`, `-FLIP` and `-NEWPIN-XXXX` with four characters. -/
def IsPinSuffix (sfx : List Char) : Prop :=
  sfx = sUNLOCK ∨ sfx = sCW ∨ sfx = sCCW ∨ sfx = sFLIP ∨
    ∃ x : List Char, x.length = 4 ∧ sfx = sNEWPIN ++ x

/-- The state after an input was refused: ERROR acknowledged, nothing else
touched. -/
def refused (s : State) : State :=
  { s with trace := s.trace ++ [.request "ERROR"] }

/-- State in which the PIN is `NAMF`, reached from the factory state by a PIN
change. -/
def pinNAMF : State :=
  onWrite ⟨NUL, []⟩
    ['1', '1', '1', '1', '-', 'N', 'E', 'W', 'P', 'I', 'N', '-', 'N', 'A', 'M', 'F']
    (initialState [])

/-- The grammar of §4.1 as the specification words it: the eight rules, with a
NEWPIN payload of exactly 4 characters and a ROTATION payload of digits. -/
def MatchesGrammar (pin value : List Char) : Prop :=
  value = sLOCK ∨ value = pin ++ sUNLOCK ∨ value = pin ++ sCW ∨ value = pin ++ sCCW ∨
    value = pin ++ sFLIP ∨
    (∃ x : List Char, x.length = 4 ∧ value = pin ++ sNEWPIN ++ x) ∨
    (∃ ds : List Char, ds ≠ [] ∧ (∀ c ∈ ds, isdigit c = true) ∧ value = sROTATION ++ ds) ∨
    (∃ t : List Char, value = sNAME ++ t)

/-- The grammar with payloads left unconstrained: `LOCK`, the four exact PIN
commands, and anything that begins with the first 12 characters of
`<pin>-NEWPIN-` (all of it when the PIN has at most 4 characters), with
`ROTATION-` or with `NAME-`. -/
def MatchesRelaxed (pin v : List Char) : Prop :=
  v = sLOCK ∨ v = pin ++ sUNLOCK ∨ v = pin ++ sCW ∨ v = pin ++ sCCW ∨ v = pin ++ sFLIP ∨
    (pin ++ sNEWPIN).take 12 <+: v ∨ sROTATION <+: v ∨ sNAME <+: v

/-- The state after a PIN change to `q` was accepted: `q` is the PIN in memory
and under key `pin` of namespace `funcooker`, READY is acknowledged. -/
def pinChanged (s : State) (q : List Char) : State :=
  { s with
    preferences := s.preferences.put "funcooker" "pin" (.str q)
    currentPin := q
    trace := s.trace ++ [.put "funcooker" "pin" (.str q), .request "READY"] }

/-- The state after an Unlock request was accepted: the flag is set and READY is
acknowledged. -/
def unlockAccepted (s : State) : State :=
  { s with unlockRequested := true, trace := s.trace ++ [.request "READY"] }

/-- State in which the PIN is `NAME`, reached from the factory state by a PIN
change. -/
def pinNAME : State :=
  onWrite ⟨NUL, []⟩
    ['1', '1', '1', '1', '-', 'N', 'E', 'W', 'P', 'I', 'N', '-', 'N', 'A', 'M', 'E']
    (initialState [])

/-- State in which the PIN is `ab`, reached from the factory state by a PIN
change with a two-character payload. -/
def pinAB : State :=
  onWrite ⟨NUL, []⟩ ['1', '1', '1', '1', '-', 'N', 'E', 'W', 'P', 'I', 'N', '-', 'a', 'b']
    (initialState [])

/-- The factory state after one accepted and serviced `LOCK`. -/
def lockedOnce : State :=
  loop (onWrite ⟨NUL, []⟩ sLOCK (initialState []))

/-- The state after a rotation count `n` was accepted: `n` is the count in
memory and under key `rotations` of namespace `funcooker`, READY is
acknowledged. -/
def rotationSet (s : State) (n : Int) : State :=
  { s with
    rotations := n
    preferences := s.preferences.put "funcooker" "rotations" (.int n)
    trace := s.trace ++ [.put "funcooker" "rotations" (.int n), .request "READY"] }

/-- The state after a device name `v` was accepted: `v` is stored under key
`name` of namespace `funcooker`, READY is acknowledged; the name in memory is
left as it is until the next start. -/
def nameStored (s : State) (v : List Char) : State :=
  { s with
    preferences := s.preferences.put "funcooker" "name" (.str v)
    trace := s.trace ++ [.put "funcooker" "name" (.str v), .request "READY"] }

/-- The decimal numeral of an integer: the digits of its absolute value, after
a minus sign when it is negative. -/
def decimalInt (n : Int) : List Char :=
  if n < 0 then '-' :: Nat.toDigits 10 n.natAbs else Nat.toDigits 10 n.natAbs

/-- Every `rotations` value in the store is positive. -/
def StoredRotationsPositive (p : Preferences) : Prop :=
  ∀ v : Int, p.lookup "funcooker" "rotations" = some (.int v) → 0 < v

/-- The payload holds no number for `atoi`: it is empty, or its first character
is neither white space nor a sign nor a digit. -/
def noNumber : List Char → Bool
  | [] => true
  | c :: _ => !isspace c && c != '-' && c != '+' && !isdigit c

/-- The rotation count of `t`, in memory and in the store, is that of `s`. -/
def SameRotations (s t : State) : Prop :=
  t.rotations = s.rotations ∧
    t.preferences.lookup "funcooker" "rotations" = s.preferences.lookup "funcooker" "rotations"

/-- The invariant of the rotation count: positive in memory and in the store. -/
def RotationsPositive (s : State) : Prop :=
  0 < s.rotations ∧ StoredRotationsPositive s.preferences

/-- The state after a Lock request was accepted: the flag is set and READY is
acknowledged. -/
def lockAccepted (s : State) : State :=
  { s with lockRequested := true, trace := s.trace ++ [.request "READY"] }

/-- The outputs of `lock` on an unlocked state. -/
def lockOutput (rotations : Int) : List Event :=
  [.buzzer true, .delay 200, .buzzer false, .status "LOCKING",
    .step (wrap32 (stepsPerRevolution * rotations)), .status "LOCKED", .request "READY",
    .buzzer true, .delay 500, .buzzer false, .delay 500, .buzzer true, .delay 500,
    .buzzer false, .powerOffServo, .put "funlocker" "locked" (.bool true)]

/-- The four kinds of deferred action. -/
inductive Action where
  | unlock
  | lock
  | adjustCW
  | adjustCCW
  deriving DecidableEq, Repr

/-- What the polling cycle calls for an action: `unlock()`, `lock()`,
`adjust(false)`, `adjust(true)`. -/
def perform : Action → State → State
  | .unlock, s => unlock s
  | .lock, s => lock s
  | .adjustCW, s => adjust false s
  | .adjustCCW, s => adjust true s

/-- The actions whose flag is set, in the order Unlock, Lock, AdjustCW,
AdjustCCW, as §4.4 words `drain`. -/
def drain (s : State) : List Action :=
  (if s.unlockRequested then [Action.unlock] else []) ++
  (if s.lockRequested then [Action.lock] else []) ++
  (if s.cwAdjustmentRequested then [Action.adjustCW] else []) ++
  (if s.ccwAdjustmentRequested then [Action.adjustCCW] else [])

/-- All four pending flags cleared. -/
def clearPending (s : State) : State :=
  { s with
    unlockRequested := false
    lockRequested := false
    cwAdjustmentRequested := false
    ccwAdjustmentRequested := false }

/-- The four pending flags: unlock, lock, adjustCW, adjustCCW. -/
def pending (s : State) : Bool × Bool × Bool × Bool :=
  (s.unlockRequested, s.lockRequested, s.cwAdjustmentRequested, s.ccwAdjustmentRequested)

/-- The state after a CW adjustment request was accepted. -/
def cwAccepted (s : State) : State :=
  { s with cwAdjustmentRequested := true, trace := s.trace ++ [.request "READY"] }

/-- The state after a CCW adjustment request was accepted. -/
def ccwAccepted (s : State) : State :=
  { s with ccwAdjustmentRequested := true, trace := s.trace ++ [.request "READY"] }

/-- The state after the FLIP branch: the lock state is toggled, the resolved
status announced, READY acknowledged and the new lock state written to the
store. -/
def flipped (s : State) : State :=
  { s with
    isLocked := !s.isLocked
    preferences := s.preferences.put "funlocker" "locked" (.bool (!s.isLocked))
    trace := s.trace ++ [.status (resolvedStatus (!s.isLocked)), .request "READY",
      .put "funlocker" "locked" (.bool (!s.isLocked))] }

/-- The lock bit that `updateStoredStatus` persists: key `locked` of namespace
`funlocker`. -/
def storedLocked (p : Preferences) : Option PrefValue := p.lookup "funlocker" "locked"

/-- One inbound command followed by one polling cycle. -/
def handleAndPoll (m : Mem) (value : List Char) (s : State) : State :=
  loop (onWrite m value s)

/-- The input that requests an adjustment: `<pin>-CCW` or `<pin>-CW`. -/
def adjustInput (s : State) (ccw : Bool) : List Char :=
  s.currentPin ++ (if ccw then sCCW else sCW)

/-- A run of adjustment requests, each one serviced in its own polling
cycle. -/
def adjustCycles (ds : List (Mem × Bool)) (s : State) : State :=
  ds.foldl (fun t d => handleAndPoll d.1 (adjustInput t d.2) t) s

/-- The input that requests a Lock (`true`) or an Unlock (`false`): `LOCK` or
`<pin>-UNLOCK`. -/
def lockInput (s : State) (lk : Bool) : List Char :=
  if lk then sLOCK else s.currentPin ++ sUNLOCK

/-- A run of Lock and Unlock requests, each one serviced in its own polling
cycle. -/
def lockCycles (ds : List (Mem × Bool)) (s : State) : State :=
  ds.foldl (fun t d => handleAndPoll d.1 (lockInput t d.2) t) s

/-- Net displacement of the stepper over a trace: the sum of its moves. -/
def displacement (t : List Event) : Int := (stepsOf t).sum

/-- No request is pending. -/
def Idle (s : State) : Prop :=
  s.unlockRequested = false ∧ s.lockRequested = false ∧
    s.cwAdjustmentRequested = false ∧ s.ccwAdjustmentRequested = false

/-- Two equal requests handled before a polling cycle coalesce into one: the
pending flags after the second are those after the first, the second adds
nothing but its READY, the drained sequence holds the action once, and the
polling cycle performs that sequence. -/
def Coalesced (m1 m2 : Mem) (v : List Char) (a : Action) (s : State) : Prop :=
  pending (onWrite m2 v (onWrite m1 v s)) = pending (onWrite m1 v s) ∧
  onWrite m2 v (onWrite m1 v s) = (onWrite m1 v s).emit [.request "READY"] ∧
  (drain (onWrite m2 v (onWrite m1 v s))).count a = 1 ∧
  loop (onWrite m2 v (onWrite m1 v s)) =
    clearPending ((drain (onWrite m2 v (onWrite m1 v s))).foldl (fun t b => perform b t)
      (onWrite m2 v (onWrite m1 v s)))

/-- The factory state with a rotation count of 1048576, reached by the input
`ROTATION-1048576`. -/
def bigRotations : State :=
  onWrite ⟨NUL, []⟩ (sROTATION ++ ['1', '0', '4', '8', '5', '7', '6']) (initialState [])

/-- The run of C11: `LOCK`, adjustments, `<pin>-UNLOCK`, adjustments, `LOCK`,
every request serviced in its own polling cycle. -/
def lockUnlockLock (m1 m2 m3 : Mem) (a1 a2 : List (Mem × Bool)) (s : State) : State :=
  handleAndPoll m3 sLOCK
    (adjustCycles a2
      (handleAndPoll m2 (s.currentPin ++ sUNLOCK)
        (adjustCycles a1 (handleAndPoll m1 sLOCK s))))

/-! ## Lemmas on C strings -/

theorem c_str_append_of_nulFree {l : List Char} (h : NulFree l) (r : List Char) :
    c_str (l ++ r) = l ++ c_str r := by
  unfold c_str
  apply List.takeWhile_append_of_pos
  intro a ha
  simpa using h a ha

theorem c_str_of_nulFree {l : List Char} (h : NulFree l) : c_str l = l := by
  have := c_str_append_of_nulFree h []
  simpa [c_str] using this

theorem c_str_prefix (l : List Char) : c_str l <+: l :=
  List.takeWhile_prefix _

theorem nulFree_set {l : List Char} (h : NulFree l) (i : Nat) {c : Char} (hc : c ≠ NUL) :
    NulFree (l.set i c) := by
  intro a ha
  rcases List.mem_or_eq_of_mem_set ha with h1 | h1
  · exact h a h1
  · exact h1 ▸ hc

/-- The handler refuses every non-empty input that none of its eight
comparisons takes. -/
theorem onWrite_refused (m : Mem) (value : List Char) (s : State)
    (h0 : value ≠ [])
    (h1 : c_str value ≠ sLOCK)
    (h2 : c_str value ≠ c_str (s.currentPin ++ sUNLOCK))
    (h3 : c_str value ≠ c_str (s.currentPin ++ sCW))
    (h4 : c_str value ≠ c_str (s.currentPin ++ sCCW))
    (h5 : c_str value ≠ c_str (s.currentPin ++ sFLIP))
    (h6 : (c_str value).take 12 ≠ (c_str (s.currentPin ++ sNEWPIN)).take 12)
    (h7 : (c_str value).take 9 ≠ sROTATION.take 9)
    (h8 : (c_str value).take 5 ≠ sNAME.take 5) :
    onWrite m value s = refused s := by
  have hl : 0 < value.length := List.length_pos.mpr h0
  simp [onWrite, refused, strcmp, strncmp, hl, h1, h2, h3, h4, h5, h6, h7, h8]

/-- A string that does not begin with `a` has other first `a.length` characters. -/
theorem take_ne_of_not_prefix {a l : List Char} (h : ¬ a <+: c_str l) :
    (c_str l).take a.length ≠ a.take a.length := by
  intro e
  apply h
  rw [List.take_length] at e
  exact e ▸ List.take_prefix _ _

theorem c_str_pinSuffix {sfx : List Char} (hs : IsPinSuffix sfx) :
    ∃ t, c_str sfx = '-' :: t := by
  rcases hs with h | h | h | h | ⟨x, _, h⟩
  · exact ⟨_, by rw [h]; rfl⟩
  · exact ⟨_, by rw [h]; rfl⟩
  · exact ⟨_, by rw [h]; rfl⟩
  · exact ⟨_, by rw [h]; rfl⟩
  · refine ⟨['N', 'E', 'W', 'P', 'I', 'N', '-'] ++ c_str x, ?_⟩
    rw [h, c_str_append_of_nulFree (by decide)]
    rfl

theorem c_str_pin_append {p k : List Char} (hp : NulFree p) (hk : NulFree k) :
    c_str (p ++ k) = p ++ k := by
  rw [c_str_append_of_nulFree hp, c_str_of_nulFree hk]

/-- A PIN with one character replaced by another one is another PIN. -/
theorem set_append_ne {p : List Char} {i : Nat} {c : Char} (hi : i < p.length)
    (hc : p[i]? ≠ some c) (t k : List Char) : p.set i c ++ t ≠ p ++ k := by
  intro e
  have h := List.append_inj_left e (by simp)
  apply hc
  rw [← h]
  simp [hi]

/-! ## C1 -/

/-- C1 (as amended): for every NUL-free current PIN and every PIN-gated command
built from it, replacing one character of the PIN part, at an index below 12,
by a different non-NUL character gives an input that `onWrite` refuses (ERROR
acknowledged, no pending flag set, lock state and configuration untouched),
provided the modified input does not begin with `ROTATION-` or `NAME-`, which
need no PIN. -/
theorem pin_mismatch_refused (m : Mem) (s : State) (i : Nat) (c : Char) (sfx : List Char)
    (hp : NulFree s.currentPin) (hi : i < s.currentPin.length) (h12 : i < 12)
    (hc0 : c ≠ NUL) (hc : s.currentPin[i]? ≠ some c) (hs : IsPinSuffix sfx)
    (hr : ¬ sROTATION <+: s.currentPin.set i c ++ sfx)
    (hn : ¬ sNAME <+: s.currentPin.set i c ++ sfx) :
    onWrite m (s.currentPin.set i c ++ sfx) s = refused s := by
  obtain ⟨t, ht⟩ := c_str_pinSuffix hs
  have hv : c_str (s.currentPin.set i c ++ sfx) = s.currentPin.set i c ++ '-' :: t := by
    rw [c_str_append_of_nulFree (nulFree_set hp i hc0), ht]
  have hpre := c_str_prefix (s.currentPin.set i c ++ sfx)
  apply onWrite_refused
  · intro e
    have := congrArg List.length e
    rcases hs with h | h | h | h | ⟨x, _, h⟩ <;> simp [h, sUNLOCK, sCW, sCCW, sFLIP, sNEWPIN] at this
  · rw [hv]
    intro e
    have hm : '-' ∈ s.currentPin.set i c ++ '-' :: t := by simp
    rw [e] at hm
    revert hm
    decide
  · rw [hv, c_str_pin_append hp (by decide)]
    exact set_append_ne hi hc _ _
  · rw [hv, c_str_pin_append hp (by decide)]
    exact set_append_ne hi hc _ _
  · rw [hv, c_str_pin_append hp (by decide)]
    exact set_append_ne hi hc _ _
  · rw [hv, c_str_pin_append hp (by decide)]
    exact set_append_ne hi hc _ _
  · rw [hv, c_str_pin_append hp (by decide)]
    intro e
    have h := congrArg (fun l => l[i]?) e
    simp only [List.getElem?_take, h12, if_true] at h
    rw [List.getElem?_append_left (by simpa using hi), List.getElem?_append_left hi] at h
    apply hc
    rw [← h]
    simp [hi]
  · exact take_ne_of_not_prefix (fun h => hr (h.trans hpre))
  · exact take_ne_of_not_prefix (fun h => hn (h.trans hpre))

/-- Witness of `pin_mismatch_refused`: PIN `1111`, input `2111-UNLOCK`. -/
theorem pin_mismatch_refused_witness :
    onWrite ⟨NUL, []⟩ (['1', '1', '1', '1'].set 0 '2' ++ sUNLOCK) (initialState []) =
      refused (initialState []) :=
  pin_mismatch_refused ⟨NUL, []⟩ (initialState []) 0 '2' sUNLOCK
    (by decide) (by decide) (by decide) (by decide) (by decide) (Or.inl rfl)
    (by decide) (by decide)

/-- C1 fails as stated: with PIN `NAMF`, the command `NAMF-UNLOCK` with its
fourth PIN character replaced by `E` is `NAME-UNLOCK`, which the handler takes
as a name change: READY is acknowledged and the stored name becomes `UNLOCK`. -/
theorem pin_mismatch_counterexample :
    pinNAMF.currentPin = ['N', 'A', 'M', 'F'] ∧
    onWrite ⟨NUL, []⟩ (['N', 'A', 'M', 'F'].set 3 'E' ++ sUNLOCK) pinNAMF ≠ refused pinNAMF ∧
    (onWrite ⟨NUL, []⟩ (['N', 'A', 'M', 'F'].set 3 'E' ++ sUNLOCK) pinNAMF).trace =
      pinNAMF.trace ++ [.put "funcooker" "name" (.str ['U', 'N', 'L', 'O', 'C', 'K']),
        .request "READY"] ∧
    (onWrite ⟨NUL, []⟩ (['N', 'A', 'M', 'F'].set 3 'E' ++ sUNLOCK) pinNAMF).preferences.getString
      "funcooker" "name" [] = ['U', 'N', 'L', 'O', 'C', 'K'] := by
  decide

/-! ## C2 -/

/-- C2 (as amended): for every NUL-free current PIN, every non-empty input
whose C string is none of `LOCK`, `<pin>-UNLOCK`, `<pin>-CW`, `<pin>-CCW`,
`<pin>-FLIP` and begins with none of `<pin>-NEWPIN-` (its first 12 characters),
`ROTATION-`, `NAME-` is refused: ERROR is acknowledged and lock state, pending
flags, PIN, rotation count and store stay as they were. -/
theorem unmatched_refused (m : Mem) (value : List Char) (s : State)
    (hp : NulFree s.currentPin) (h0 : value ≠ [])
    (hg : ¬ MatchesRelaxed s.currentPin (c_str value)) :
    onWrite m value s = refused s := by
  simp only [MatchesRelaxed, not_or] at hg
  obtain ⟨h1, h2, h3, h4, h5, h6, h7, h8⟩ := hg
  apply onWrite_refused m value s h0 h1
  · rwa [c_str_pin_append hp (by decide)]
  · rwa [c_str_pin_append hp (by decide)]
  · rwa [c_str_pin_append hp (by decide)]
  · rwa [c_str_pin_append hp (by decide)]
  · rw [c_str_pin_append hp (by decide)]
    intro e
    exact h6 (e ▸ List.take_prefix _ _)
  · exact take_ne_of_not_prefix h7
  · exact take_ne_of_not_prefix h8

/-- Witness of `unmatched_refused`: PIN `1111`, input `OPEN`. -/
theorem unmatched_refused_witness :
    onWrite ⟨NUL, []⟩ ['O', 'P', 'E', 'N'] (initialState []) = refused (initialState []) :=
  unmatched_refused ⟨NUL, []⟩ ['O', 'P', 'E', 'N'] (initialState [])
    (by decide) (by decide) (by unfold MatchesRelaxed; decide)

/-- C2 fails as stated: with PIN `1111`, neither the empty input nor
`ROTATION-x` matches a rule of the grammar, yet the empty input is not
acknowledged at all and `ROTATION-x` is acknowledged READY and sets the rotation
count, in memory and in the store, to 0. -/
theorem unmatched_counterexample :
    ¬ MatchesGrammar (initialState []).currentPin [] ∧
    onWrite ⟨NUL, []⟩ [] (initialState []) = initialState [] ∧
    ¬ MatchesGrammar (initialState []).currentPin (sROTATION ++ ['x']) ∧
    onWrite ⟨NUL, []⟩ (sROTATION ++ ['x']) (initialState []) =
      { initialState [] with
        rotations := 0
        preferences := [⟨"funcooker", "rotations", .int 0⟩]
        trace := [.put "funcooker" "rotations" (.int 0), .request "READY"] } := by
  refine ⟨?_, by decide, ?_, by decide⟩
  · simp [MatchesGrammar, initialState, sLOCK, sUNLOCK, sCW, sCCW, sFLIP, sNEWPIN, sROTATION,
      sNAME]
  · simp [MatchesGrammar, initialState, sLOCK, sUNLOCK, sCW, sCCW, sFLIP, sNEWPIN, sROTATION,
      sNAME, isdigit]

/-! ## The NEWPIN and UNLOCK branches -/

theorem length_four {l : List Char} (h : l.length = 4) : ∃ a b c d, l = [a, b, c, d] := by
  match l, h with
  | [a, b, c, d], _ => exact ⟨a, b, c, d, rfl⟩

/-- A PIN followed by a suffix that starts with `-` is not `LOCK`. -/
theorem pin_dash_ne_LOCK (p t : List Char) : p ++ '-' :: t ≠ sLOCK := by
  intro e
  have hm : '-' ∈ p ++ '-' :: t := by simp
  rw [e] at hm
  revert hm
  decide

/-- The handler takes `<pin>-NEWPIN-<w>` as a PIN change whenever the PIN is
NUL-free and has at least 4 characters. -/
theorem onWrite_newpin (m : Mem) (s : State) (w : List Char)
    (hp : NulFree s.currentPin) (h4 : 4 ≤ s.currentPin.length) :
    onWrite m (s.currentPin ++ sNEWPIN ++ w) s =
      pinChanged s (newPinTemp m (s.currentPin ++ sNEWPIN ++ w)) := by
  have hv : c_str (s.currentPin ++ sNEWPIN ++ w) = s.currentPin ++ sNEWPIN ++ c_str w := by
    rw [List.append_assoc, c_str_append_of_nulFree hp, c_str_append_of_nulFree (by decide),
      List.append_assoc]
  have h0 : 0 < (s.currentPin ++ sNEWPIN ++ w).length := by simp [sNEWPIN]
  have h1 : c_str (s.currentPin ++ sNEWPIN ++ w) ≠ sLOCK := by
    rw [hv, List.append_assoc]; exact pin_dash_ne_LOCK _ _
  have hk : ∀ k, k = sUNLOCK ∨ k = sCW ∨ k = sCCW ∨ k = sFLIP →
      c_str (s.currentPin ++ sNEWPIN ++ w) ≠ c_str (s.currentPin ++ k) := by
    intro k hk e
    have hkn : NulFree k := by rcases hk with h | h | h | h <;> rw [h] <;> decide
    rw [hv, c_str_pin_append hp hkn, List.append_assoc] at e
    have e2 := congrArg List.length (List.append_cancel_left e)
    rcases hk with h | h | h | h <;> simp [h, sNEWPIN, sUNLOCK, sCW, sCCW, sFLIP] at e2
  have h6 : (c_str (s.currentPin ++ sNEWPIN ++ w)).take 12 =
      (c_str (s.currentPin ++ sNEWPIN)).take 12 := by
    rw [hv, c_str_pin_append hp (by decide)]
    exact List.take_append_of_le_length (by simp [sNEWPIN]; omega)
  simp only [onWrite, pinChanged, strcmp, strncmp, h0, h1, hk sUNLOCK (by simp),
    hk sCW (by simp), hk sCCW (by simp), hk sFLIP (by simp), h6, decide_True, decide_False,
    if_true, if_false, Bool.false_eq_true]

/-- With a 4-character PIN, the four bytes copied to `temp` are the payload. -/
theorem c_str_take4_payload {w : List Char} (hw : NulFree w) (hl : w.length ≤ 4)
    (r : List Char) : c_str ((w ++ NUL :: r).take 4) = w := by
  rw [List.take_append_eq_append_take, List.take_of_length_le hl, c_str_append_of_nulFree hw]
  rcases Nat.eq_zero_or_pos (4 - w.length) with h | h
  · simp [h, c_str]
  · obtain ⟨k, hk⟩ := Nat.exists_eq_succ_of_ne_zero (Nat.pos_iff_ne_zero.mp h)
    simp [hk, c_str, NUL]

/-- The new PIN read from `temp`, for a 4-character PIN and a NUL-free payload
of at most 4 characters: the payload, followed by the stale byte `temp[4]` when
the payload fills all four copied bytes and that byte is not NUL. -/
theorem newPinTemp_payload (m : Mem) {p w : List Char} (hp4 : p.length = 4)
    (hw : NulFree w) (hl : w.length ≤ 4) :
    newPinTemp m (p ++ sNEWPIN ++ w) =
      if w.length = 4 then w ++ c_str [m.temp4] else w := by
  have hd : (p ++ sNEWPIN ++ w ++ NUL :: m.past).drop 12 = w ++ NUL :: m.past := by
    rw [List.append_assoc (p ++ sNEWPIN)]
    exact List.drop_left' (by simp [hp4, sNEWPIN])
  unfold newPinTemp strncpy4
  simp only [hd, c_str_take4_payload hw hl]
  rw [List.append_assoc, c_str_append_of_nulFree hw]
  split
  · next h => simp [h]
  · next h =>
    obtain ⟨k, hk⟩ := Nat.exists_eq_succ_of_ne_zero (show 4 - w.length ≠ 0 by omega)
    simp [hk, c_str, NUL, List.replicate_succ]

/-- The handler takes `<pin>-UNLOCK` as an Unlock request for every NUL-free
PIN. -/
theorem onWrite_unlock (m : Mem) (s : State) (hp : NulFree s.currentPin) :
    onWrite m (s.currentPin ++ sUNLOCK) s = unlockAccepted s := by
  have hv : c_str (s.currentPin ++ sUNLOCK) = s.currentPin ++ sUNLOCK :=
    c_str_pin_append hp (by decide)
  have h0 : 0 < (s.currentPin ++ sUNLOCK).length := by simp [sUNLOCK]
  have h1 : s.currentPin ++ sUNLOCK ≠ sLOCK := pin_dash_ne_LOCK _ _
  simp only [onWrite, unlockAccepted, strcmp, h0, hv, h1, decide_True, decide_False,
    if_true, if_false, Bool.false_eq_true]

/-- A full payload: with a NUL-free 4-character PIN, a NUL-free 4-character
payload and a NUL in `temp[4]`, the new PIN is the payload. -/
theorem onWrite_newpin_four (m : Mem) (s : State) (q : List Char)
    (hp : NulFree s.currentPin) (hp4 : s.currentPin.length = 4)
    (hq : NulFree q) (hq4 : q.length = 4) (ht : m.temp4 = NUL) :
    onWrite m (s.currentPin ++ sNEWPIN ++ q) s = pinChanged s q := by
  rw [onWrite_newpin m s q hp (by omega), newPinTemp_payload m hp4 hq (by omega)]
  simp [hq4, ht, c_str]

/-! ## C3 -/

/-- C3 (as amended): for every NUL-free 4-character current PIN `p` other than
`NAME` and every NUL-free 4-character payload `q`, when the byte `temp[4]` that
the handler reads without having written it is NUL, handling `p-NEWPIN-q` sets
the current PIN (and the stored pin) to exactly `q` and acknowledges READY;
afterwards `q-UNLOCK` is accepted as an Unlock request and, when `q` differs
from `p`, `p-UNLOCK` is refused with ERROR. -/
theorem newpin_then_unlock (m m1 m2 : Mem) (s : State) (q : List Char)
    (hp : NulFree s.currentPin) (hp4 : s.currentPin.length = 4)
    (hq : NulFree q) (hq4 : q.length = 4) (ht : m.temp4 = NUL)
    (hname : s.currentPin ≠ ['N', 'A', 'M', 'E']) :
    onWrite m (s.currentPin ++ sNEWPIN ++ q) s = pinChanged s q ∧
    onWrite m1 (q ++ sUNLOCK) (pinChanged s q) = unlockAccepted (pinChanged s q) ∧
    (q ≠ s.currentPin →
      onWrite m2 (s.currentPin ++ sUNLOCK) (pinChanged s q) = refused (pinChanged s q)) := by
  refine ⟨?_, onWrite_unlock m1 (pinChanged s q) hq, ?_⟩
  · exact onWrite_newpin_four m s q hp hp4 hq hq4 ht
  · intro hne
    have hv : c_str (s.currentPin ++ sUNLOCK) = s.currentPin ++ sUNLOCK :=
      c_str_pin_append hp (by decide)
    have hcur : (pinChanged s q).currentPin = q := rfl
    apply onWrite_refused
    · simp [sUNLOCK]
    · rw [hv]; exact pin_dash_ne_LOCK _ _
    · rw [hv, hcur, c_str_pin_append hq (by decide)]
      intro e
      exact hne (List.append_cancel_right e).symm
    · rw [hv, hcur, c_str_pin_append hq (by decide)]
      intro e
      have := congrArg List.length e
      simp [sUNLOCK, sCW, hp4, hq4] at this
    · rw [hv, hcur, c_str_pin_append hq (by decide)]
      intro e
      have := congrArg List.length e
      simp [sUNLOCK, sCCW, hp4, hq4] at this
    · rw [hv, hcur, c_str_pin_append hq (by decide)]
      intro e
      have := congrArg List.length e
      simp [sUNLOCK, sFLIP, hp4, hq4] at this
    · rw [hv, hcur, c_str_pin_append hq (by decide)]
      obtain ⟨a, b, c, d, hpe⟩ := length_four hp4
      obtain ⟨e, f, g, h, hqe⟩ := length_four hq4
      simp [hpe, hqe, sUNLOCK, sNEWPIN]
    · rw [hv]
      obtain ⟨a, b, c, d, hpe⟩ := length_four hp4
      simp [hpe, sUNLOCK, sROTATION]
    · rw [hv]
      obtain ⟨a, b, c, d, hpe⟩ := length_four hp4
      rw [hpe] at hname ⊢
      simp only [sUNLOCK, sNAME, List.cons_append, List.nil_append, List.take_succ_cons,
        List.take_zero, ne_eq, List.cons.injEq, and_true]
      simpa using hname

/-- Witness of `newpin_then_unlock`: PIN `1111`, payload `9999`. -/
theorem newpin_then_unlock_witness :
    onWrite ⟨NUL, []⟩ (['1', '1', '1', '1'] ++ sNEWPIN ++ ['9', '9', '9', '9'])
        (initialState []) = pinChanged (initialState []) ['9', '9', '9', '9'] ∧
    onWrite ⟨NUL, []⟩ (['9', '9', '9', '9'] ++ sUNLOCK)
        (pinChanged (initialState []) ['9', '9', '9', '9']) =
      unlockAccepted (pinChanged (initialState []) ['9', '9', '9', '9']) ∧
    onWrite ⟨NUL, []⟩ (['1', '1', '1', '1'] ++ sUNLOCK)
        (pinChanged (initialState []) ['9', '9', '9', '9']) =
      refused (pinChanged (initialState []) ['9', '9', '9', '9']) :=
  ⟨(newpin_then_unlock ⟨NUL, []⟩ ⟨NUL, []⟩ ⟨NUL, []⟩ (initialState []) ['9', '9', '9', '9']
      (by decide) (by decide) (by decide) (by decide) rfl (by decide)).1,
    (newpin_then_unlock ⟨NUL, []⟩ ⟨NUL, []⟩ ⟨NUL, []⟩ (initialState []) ['9', '9', '9', '9']
      (by decide) (by decide) (by decide) (by decide) rfl (by decide)).2.1,
    (newpin_then_unlock ⟨NUL, []⟩ ⟨NUL, []⟩ ⟨NUL, []⟩ (initialState []) ['9', '9', '9', '9']
      (by decide) (by decide) (by decide) (by decide) rfl (by decide)).2.2 (by decide)⟩

/-- C3 fails as stated for `p = NAME`, `q = 9999`: after `NAME-NEWPIN-9999` has
set the PIN to `9999`, the input `NAME-UNLOCK` is not refused but taken as a name
change and acknowledged READY. -/
theorem newpin_then_unlock_counterexample :
    pinNAME.currentPin = ['N', 'A', 'M', 'E'] ∧
    onWrite ⟨NUL, []⟩ (['N', 'A', 'M', 'E'] ++ sNEWPIN ++ ['9', '9', '9', '9']) pinNAME =
      pinChanged pinNAME ['9', '9', '9', '9'] ∧
    onWrite ⟨NUL, []⟩ (['N', 'A', 'M', 'E'] ++ sUNLOCK) (pinChanged pinNAME ['9', '9', '9', '9']) ≠
      refused (pinChanged pinNAME ['9', '9', '9', '9']) ∧
    (onWrite ⟨NUL, []⟩ (['N', 'A', 'M', 'E'] ++ sUNLOCK)
        (pinChanged pinNAME ['9', '9', '9', '9'])).trace =
      (pinChanged pinNAME ['9', '9', '9', '9']).trace ++
        [.put "funcooker" "name" (.str ['U', 'N', 'L', 'O', 'C', 'K']), .request "READY"] := by
  decide

/-- The stale byte: with PIN `1111` and `temp[4]` holding `x`, the input
`1111-NEWPIN-9999` sets the PIN to the five characters `9999x`, after which
`9999-UNLOCK` is refused. -/
theorem newpin_stale_byte :
    (onWrite ⟨'x', []⟩ (['1', '1', '1', '1'] ++ sNEWPIN ++ ['9', '9', '9', '9'])
      (initialState [])).currentPin = ['9', '9', '9', '9', 'x'] ∧
    onWrite ⟨NUL, []⟩ (['9', '9', '9', '9'] ++ sUNLOCK)
        (onWrite ⟨'x', []⟩ (['1', '1', '1', '1'] ++ sNEWPIN ++ ['9', '9', '9', '9'])
          (initialState [])) =
      refused (onWrite ⟨'x', []⟩ (['1', '1', '1', '1'] ++ sNEWPIN ++ ['9', '9', '9', '9'])
        (initialState [])) := by
  decide

/-! ## C4 -/

/-- C4 (as amended): for every NUL-free 4-character current PIN and every
NUL-free payload of fewer than 4 characters (the empty one included), the
handler accepts `<pin>-NEWPIN-<payload>`: it acknowledges READY and sets the
current PIN and the stored pin to the payload; it reads no byte behind the end
of the input. -/
theorem short_newpin_accepted (m : Mem) (s : State) (w : List Char)
    (hp : NulFree s.currentPin) (hp4 : s.currentPin.length = 4)
    (hw : NulFree w) (hl : w.length < 4) :
    onWrite m (s.currentPin ++ sNEWPIN ++ w) s = pinChanged s w ∧
    readsPastInput (s.currentPin ++ sNEWPIN ++ w) s = false := by
  constructor
  · rw [onWrite_newpin m s w hp (by omega), newPinTemp_payload m hp4 hw (by omega)]
    simp [Nat.ne_of_lt hl]
  · have h12 : ¬ (s.currentPin ++ sNEWPIN ++ w).length < 12 := by
      simp [hp4, sNEWPIN]; omega
    simp only [readsPastInput, h12, decide_False, Bool.and_false]

/-- Witness of `short_newpin_accepted`: PIN `1111`, payload `ab`. -/
theorem short_newpin_accepted_witness :
    onWrite ⟨'x', []⟩ (['1', '1', '1', '1'] ++ sNEWPIN ++ ['a', 'b']) (initialState []) =
      pinChanged (initialState []) ['a', 'b'] ∧
    readsPastInput (['1', '1', '1', '1'] ++ sNEWPIN ++ ['a', 'b']) (initialState []) = false :=
  short_newpin_accepted ⟨'x', []⟩ (initialState []) ['a', 'b']
    (by decide) (by decide) (by decide) (by decide)

/-- C4 fails as stated: with PIN `1111`, the input `1111-NEWPIN-ab` is not
refused; READY is acknowledged and the PIN, in memory and in the store, becomes
`ab`. -/
theorem short_newpin_counterexample :
    onWrite ⟨NUL, []⟩ (['1', '1', '1', '1'] ++ sNEWPIN ++ ['a', 'b']) (initialState []) ≠
      refused (initialState []) ∧
    onWrite ⟨NUL, []⟩ (['1', '1', '1', '1'] ++ sNEWPIN ++ ['a', 'b']) (initialState []) =
      { initialState [] with
        currentPin := ['a', 'b']
        preferences := [⟨"funcooker", "pin", .str ['a', 'b']⟩]
        trace := [.put "funcooker" "pin" (.str ['a', 'b']), .request "READY"] } := by
  decide

/-- With the 2-character PIN `ab`, the input `ab-NEWPIN-` is accepted, and the
payload is read from behind the end of the input: the new PIN is made of bytes
that lie two positions behind the terminator. -/
theorem short_pin_reads_past :
    pinAB.currentPin = ['a', 'b'] ∧
    readsPastInput (['a', 'b'] ++ sNEWPIN) pinAB = true ∧
    (onWrite ⟨NUL, ['?', 'w', 'x', 'y', 'z']⟩ (['a', 'b'] ++ sNEWPIN) pinAB).currentPin =
      ['w', 'x', 'y', 'z'] := by
  decide

/-! ## C5 -/

/-- C5, the code at the failing input: from the factory state one `LOCK` is
accepted and serviced, which leaves the lock state true and writes `locked =
true` to namespace `funlocker`; the restart reads `locked` from namespace
`funcooker`, so it comes up with `isLocked = false` and announces UNLOCKED. -/
theorem locked_bit_not_restored :
    lockedOnce.isLocked = true ∧
    lockedOnce.preferences = [⟨"funlocker", "locked", .bool true⟩] ∧
    (boot lockedOnce.preferences).isLocked = false ∧
    statusesOf (boot lockedOnce.preferences).trace = ["UNLOCKED"] := by
  decide

/-! ## The preference store -/

theorem lookup_put_same (p : Preferences) (ns key : String) (v : PrefValue) :
    (p.put ns key v).lookup ns key = some v := by
  simp [Preferences.put, Preferences.lookup]

theorem find_filter_other (p : Preferences) (ns key ns1 key1 : String)
    (h : ¬ (ns = ns1 ∧ key = key1)) :
    (p.filter (fun e => !(e.ns == ns && e.key == key))).find?
        (fun e => e.ns == ns1 && e.key == key1) =
      p.find? (fun e => e.ns == ns1 && e.key == key1) := by
  induction p with
  | nil => rfl
  | cons e t ih =>
    cases hb : (e.ns == ns && e.key == key) with
    | true =>
      cases hb2 : (e.ns == ns1 && e.key == key1) with
      | true =>
        exfalso
        simp only [Bool.and_eq_true, beq_iff_eq] at hb hb2
        exact h ⟨hb.1 ▸ hb2.1, hb.2 ▸ hb2.2⟩
      | false =>
        simp only [List.filter_cons, List.find?_cons, hb, hb2, Bool.not_true,
          Bool.false_eq_true, if_false]
        exact ih
    | false =>
      cases hb2 : (e.ns == ns1 && e.key == key1) with
      | true =>
        simp only [List.filter_cons, List.find?_cons, hb, hb2, Bool.not_false, if_true]
      | false =>
        simp only [List.filter_cons, List.find?_cons, hb, hb2, Bool.not_false, if_true]
        exact ih

theorem lookup_put_other (p : Preferences) (ns key ns1 key1 : String) (v : PrefValue)
    (h : ¬ (ns = ns1 ∧ key = key1)) :
    (p.put ns key v).lookup ns1 key1 = p.lookup ns1 key1 := by
  have h5 : (ns == ns1 && key == key1) = false := by simpa using h
  unfold Preferences.put Preferences.lookup
  rw [List.find?_cons_of_neg _ (by simp [h5]), find_filter_other p ns key ns1 key1 h]

/-- The restart never sees what `updateStoredStatus` wrote: for every state, the
lock state read by `initLock` is the same over the store before and after the
write. -/
theorem stored_status_ignored (s t : State) :
    (initLock { t with preferences := (updateStoredStatus s).preferences }).isLocked =
      (initLock { t with preferences := s.preferences }).isLocked := by
  simp [initLock, updateStoredStatus, Preferences.getBool, lookup_put_other]

/-! ## The ROTATION and NAME branches -/

/-- The handler takes `ROTATION-<w>` as a rotation change for every payload,
when the PIN is NUL-free and has 4 characters. -/
theorem onWrite_rotation (m : Mem) (s : State) (w : List Char)
    (hp : NulFree s.currentPin) (hp4 : s.currentPin.length = 4) :
    onWrite m (sROTATION ++ w) s = rotationSet s (atoi (c_str w)) := by
  have hv : c_str (sROTATION ++ w) = sROTATION ++ c_str w :=
    c_str_append_of_nulFree (by decide) w
  obtain ⟨a, b, c, d, hpe⟩ := length_four hp4
  have hk : ∀ k, NulFree k → c_str (s.currentPin ++ k) = [a, b, c, d] ++ k := by
    intro k hk
    rw [c_str_pin_append hp hk, hpe]
  have h0 : 0 < (sROTATION ++ w).length := by simp [sROTATION]
  simp only [onWrite, h0, hv, hk sUNLOCK (by decide), hk sCW (by decide), hk sCCW (by decide),
    hk sFLIP (by decide), hk sNEWPIN (by decide), strcmp, strncmp, rotationSet]
  simp [sROTATION, sLOCK, sUNLOCK, sCW, sCCW, sFLIP, sNEWPIN]

/-- An input that begins with `NAME-` is no command of a 4-character PIN other
than `NAME`, not even in its first 12 characters. -/
theorem name_ne_pin_cmd {p : List Char} (hp4 : p.length = 4)
    (hname : p ≠ ['N', 'A', 'M', 'E']) (cw k : List Char) :
    (sNAME ++ cw).take 12 ≠ (p ++ k).take 12 ∧ sNAME ++ cw ≠ p ++ k := by
  have key : (sNAME ++ cw).take 4 ≠ (p ++ k).take 4 := by
    rw [List.take_left' hp4]
    intro e
    exact hname e.symm
  constructor
  · intro e
    apply key
    have := congrArg (List.take 4) e
    simpa [List.take_take] using this
  · intro e
    exact key (congrArg (List.take 4) e)

/-- The handler takes `NAME-<w>` as a name change for every payload, when the
PIN is NUL-free, has 4 characters and is not `NAME`. -/
theorem onWrite_name (m : Mem) (s : State) (w : List Char)
    (hp : NulFree s.currentPin) (hp4 : s.currentPin.length = 4)
    (hname : s.currentPin ≠ ['N', 'A', 'M', 'E']) :
    onWrite m (sNAME ++ w) s = nameStored s (c_str w) := by
  have hv : c_str (sNAME ++ w) = sNAME ++ c_str w :=
    c_str_append_of_nulFree (by decide) w
  have h0 : 0 < (sNAME ++ w).length := by simp [sNAME]
  have h1 : sNAME ++ c_str w ≠ sLOCK := by simp [sNAME, sLOCK]
  have hk : ∀ k, NulFree k → sNAME ++ c_str w ≠ c_str (s.currentPin ++ k) := by
    intro k hk
    rw [c_str_pin_append hp hk]
    exact (name_ne_pin_cmd hp4 hname _ _).2
  have h6 : (sNAME ++ c_str w).take 12 ≠ (c_str (s.currentPin ++ sNEWPIN)).take 12 := by
    rw [c_str_pin_append hp (by decide)]
    exact (name_ne_pin_cmd hp4 hname _ _).1
  have h7 : (sNAME ++ c_str w).take 9 ≠ sROTATION.take 9 := by simp [sNAME, sROTATION]
  have h8 : (sNAME ++ c_str w).take 5 = sNAME.take 5 := by simp [sNAME]
  have h9 : (sNAME ++ c_str w).drop 5 = c_str w := by simp [sNAME]
  simp only [onWrite, nameStored, strcmp, strncmp, h0, hv, h1, hk sUNLOCK (by decide),
    hk sCW (by decide), hk sCCW (by decide), hk sFLIP (by decide), h6, h7, h8, h9,
    decide_True, decide_False, if_true, if_false, Bool.false_eq_true]

/-! ## Decimal numerals and `atoi` -/

theorem digitChar_value (k : Nat) (hk : k < 10) :
    (Nat.digitChar k).toNat - 48 = k ∧ isdigit (Nat.digitChar k) = true := by
  interval_cases k <;> decide

theorem toDigitsCore_spec (fuel : Nat) : ∀ (n : Nat) (ds : List Char), n < fuel →
    ∃ l : List Char, Nat.toDigitsCore 10 fuel n ds = l ++ ds ∧ l ≠ [] ∧
      (∀ c ∈ l, isdigit c = true) ∧ digitsValue l = n := by
  induction fuel with
  | zero => intro n ds h; omega
  | succ fuel ih =>
    intro n ds h
    obtain ⟨hv, hd⟩ := digitChar_value (n % 10) (Nat.mod_lt _ (by decide))
    unfold Nat.toDigitsCore
    by_cases h0 : n / 10 = 0
    · refine ⟨[Nat.digitChar (n % 10)], by simp [h0], by simp, by simpa using hd, ?_⟩
      simp only [digitsValue, List.foldl_cons, List.foldl_nil, hv]
      omega
    · obtain ⟨l, hl, _, hdig, hval⟩ := ih (n / 10) (Nat.digitChar (n % 10) :: ds) (by omega)
      refine ⟨l ++ [Nat.digitChar (n % 10)], by simp [h0, hl], by simp, ?_, ?_⟩
      · intro c hc
        rcases List.mem_append.mp hc with h1 | h1
        · exact hdig c h1
        · rw [List.mem_singleton.mp h1]; exact hd
      · unfold digitsValue at hval ⊢
        rw [List.foldl_append, hval]
        simp only [List.foldl_cons, List.foldl_nil, hv]
        omega

/-- The decimal numeral of a natural number is a non-empty run of digits whose
value is the number. -/
theorem toDigits_spec (n : Nat) :
    Nat.toDigits 10 n ≠ [] ∧ (∀ c ∈ Nat.toDigits 10 n, isdigit c = true) ∧
      digitsValue (Nat.toDigits 10 n) = n := by
  obtain ⟨l, hl, hne, hdig, hval⟩ := toDigitsCore_spec (n + 1) n [] (by omega)
  have : Nat.toDigits 10 n = l := by simpa [Nat.toDigits] using hl
  rw [this]
  exact ⟨hne, hdig, hval⟩

theorem takeWhile_isdigit_self {l : List Char} (h : ∀ c ∈ l, isdigit c = true) :
    l.takeWhile isdigit = l := by
  have := @List.takeWhile_append_of_pos Char isdigit l [] h
  simpa using this

theorem nulFree_of_digits {l : List Char} (h : ∀ c ∈ l, isdigit c = true) : NulFree l := by
  intro c hc e
  have := h c hc
  rw [e] at this
  revert this
  decide

/-- On a non-empty run of digits `atoi` gives its value, saturated. -/
theorem atoi_digits {l : List Char} (hne : l ≠ []) (h : ∀ c ∈ l, isdigit c = true) :
    atoi l = clampInt (digitsValue l) := by
  obtain ⟨c, t, rfl⟩ := List.exists_cons_of_ne_nil hne
  have hc : isdigit c = true := h c (by simp)
  have hs : isspace c = false := by
    simp only [isdigit, isspace, Bool.and_eq_true, decide_eq_true_eq] at hc ⊢
    simp only [Bool.or_eq_false_iff, Bool.and_eq_false_iff, decide_eq_false_iff_not]
    omega
  have hm : c ≠ '-' := by rintro rfl; revert hc; decide
  have hpl : c ≠ '+' := by rintro rfl; revert hc; decide
  unfold atoi
  simp only [List.dropWhile_cons, hs, Bool.false_eq_true, if_false]
  split
  · next t1 heq => exact absurd (List.cons.inj heq).1 hm
  · next t1 heq => exact absurd (List.cons.inj heq).1 hpl
  · rw [takeWhile_isdigit_self h]

/-- On a minus sign followed by digits `atoi` gives the negated value,
saturated. -/
theorem atoi_neg_digits {l : List Char} (h : ∀ c ∈ l, isdigit c = true) :
    atoi ('-' :: l) = clampInt (-(digitsValue l : Int)) := by
  unfold atoi
  have hs : isspace '-' = false := by decide
  simp only [List.dropWhile_cons, hs, Bool.false_eq_true, if_false]
  rw [takeWhile_isdigit_self h]

/-- The function `atoi` reads the decimal numeral of every `int` back. -/
theorem atoi_decimalInt (n : Int) (hlo : INT_MIN ≤ n) (hhi : n ≤ INT_MAX) :
    atoi (decimalInt n) = n ∧ NulFree (decimalInt n) := by
  obtain ⟨hne, hdig, hval⟩ := toDigits_spec n.natAbs
  unfold decimalInt
  unfold INT_MIN at hlo
  unfold INT_MAX at hhi
  split
  · next hneg =>
    refine ⟨?_, ?_⟩
    · rw [atoi_neg_digits hdig, hval]
      unfold clampInt INT_MIN INT_MAX
      split_ifs <;> omega
    · intro c hc
      rcases List.mem_cons.mp hc with h1 | h1
      · rw [h1]; decide
      · exact nulFree_of_digits hdig c h1
  · next hpos =>
    refine ⟨?_, nulFree_of_digits hdig⟩
    rw [atoi_digits hne hdig, hval]
    unfold clampInt INT_MIN INT_MAX
    split_ifs <;> omega

/-- Without a number at its start, `atoi` gives 0. -/
theorem atoi_noNumber {w : List Char} (h : noNumber w = true) : atoi w = 0 := by
  unfold atoi
  cases w with
  | nil => rfl
  | cons c t =>
    simp only [noNumber, Bool.and_eq_true, Bool.not_eq_true', bne_iff_ne, ne_eq] at h
    obtain ⟨⟨⟨hs, hm⟩, hpl⟩, hd⟩ := h
    simp only [List.dropWhile_cons, hs, Bool.false_eq_true, if_false]
    split
    · next t1 heq => exact absurd (List.cons.inj heq).1 hm
    · next t1 heq => exact absurd (List.cons.inj heq).1 hpl
    · simp [List.takeWhile_cons, hd, digitsValue, clampInt, INT_MIN, INT_MAX]

/-! ## C6 -/

/-- C6 (as amended): with a NUL-free 4-character current PIN, a restart loads
what the owning command stored: after `<pin>-NEWPIN-v` with a NUL-free
4-character `v` the PIN `v`, when the byte `temp[4]` the handler reads without
having written it is NUL; after `NAME-w` with a NUL-free `w` the name `w`, when
the current PIN is not `NAME`; after `ROTATION-n` with the decimal numeral of an
`int` `n` the rotation count `n`. -/
theorem config_round_trip (m : Mem) (s : State) (v w : List Char) (n : Int)
    (hp : NulFree s.currentPin) (hp4 : s.currentPin.length = 4)
    (hv : NulFree v) (hv4 : v.length = 4) (hw : NulFree w)
    (hlo : INT_MIN ≤ n) (hhi : n ≤ INT_MAX) :
    (m.temp4 = NUL →
      (boot (onWrite m (s.currentPin ++ sNEWPIN ++ v) s).preferences).currentPin = v) ∧
    (s.currentPin ≠ ['N', 'A', 'M', 'E'] →
      (boot (onWrite m (sNAME ++ w) s).preferences).deviceName = w) ∧
    (boot (onWrite m (sROTATION ++ decimalInt n) s).preferences).rotations = n := by
  refine ⟨?_, ?_, ?_⟩
  · intro ht
    rw [onWrite_newpin_four m s v hp hp4 hv hv4 ht]
    simp [boot, setup, initLock, State.emit, initialState, pinChanged, Preferences.getString,
      lookup_put_same]
  · intro hname
    rw [onWrite_name m s w hp hp4 hname, c_str_of_nulFree hw]
    simp [boot, setup, initLock, State.emit, initialState, nameStored, Preferences.getString,
      lookup_put_same]
  · obtain ⟨ha, hnf⟩ := atoi_decimalInt n hlo hhi
    rw [onWrite_rotation m s _ hp hp4, c_str_of_nulFree hnf, ha]
    simp [boot, setup, initLock, State.emit, initialState, rotationSet, Preferences.getInt,
      lookup_put_same]

/-- Witness of `config_round_trip`: PIN `1111`, new PIN `9999`, name `Door`,
rotation count 7. -/
theorem config_round_trip_witness :
    (boot (onWrite ⟨NUL, []⟩ ((initialState []).currentPin ++ sNEWPIN ++ ['9', '9', '9', '9'])
      (initialState [])).preferences).currentPin = ['9', '9', '9', '9'] ∧
    (boot (onWrite ⟨NUL, []⟩ (sNAME ++ ['D', 'o', 'o', 'r'])
      (initialState [])).preferences).deviceName = ['D', 'o', 'o', 'r'] ∧
    (boot (onWrite ⟨NUL, []⟩ (sROTATION ++ decimalInt 7)
      (initialState [])).preferences).rotations = 7 :=
  ⟨(config_round_trip ⟨NUL, []⟩ (initialState []) ['9', '9', '9', '9'] ['D', 'o', 'o', 'r'] 7
      (by decide) (by decide) (by decide) (by decide) (by decide) (by decide) (by decide)).1 rfl,
    (config_round_trip ⟨NUL, []⟩ (initialState []) ['9', '9', '9', '9'] ['D', 'o', 'o', 'r'] 7
      (by decide) (by decide) (by decide) (by decide) (by decide) (by decide)
      (by decide)).2.1 (by decide),
    (config_round_trip ⟨NUL, []⟩ (initialState []) ['9', '9', '9', '9'] ['D', 'o', 'o', 'r'] 7
      (by decide) (by decide) (by decide) (by decide) (by decide) (by decide) (by decide)).2.2⟩

/-- C6 fails as stated, in two ways that follow from the order and the types of
the handler: with the PIN `NAME`, the input `NAME-UNLOCK` is taken as an Unlock
request, so that a restart loads the old name and not `UNLOCK`; and after
`ROTATION-3000000000` a restart loads 2147483647. -/
theorem config_round_trip_counterexample :
    pinNAME.currentPin = ['N', 'A', 'M', 'E'] ∧
    (boot (onWrite ⟨NUL, []⟩ (sNAME ++ ['U', 'N', 'L', 'O', 'C', 'K']) pinNAME).preferences).deviceName =
      ['F', 'u', 'n', 'l', 'o', 'c', 'k', 'e', 'r'] ∧
    (onWrite ⟨NUL, []⟩ (sNAME ++ ['U', 'N', 'L', 'O', 'C', 'K']) pinNAME).unlockRequested = true ∧
    (boot (onWrite ⟨NUL, []⟩ (sROTATION ++ ['3', '0', '0', '0', '0', '0', '0', '0', '0', '0'])
      (initialState [])).preferences).rotations = 2147483647 := by
  decide

/-! ## C7 -/

/-- C7 (as amended): with a NUL-free 4-character current PIN, every input that
begins with `ROTATION-` is accepted whatever its payload: READY is acknowledged
and the rotation count, in memory and in the store, becomes what `atoi` reads
from the payload, which is 0 when the payload is empty or begins with a
character that is neither white space, sign nor digit. -/
theorem rotation_payload_unchecked (m : Mem) (s : State) (w : List Char)
    (hp : NulFree s.currentPin) (hp4 : s.currentPin.length = 4) :
    onWrite m (sROTATION ++ w) s = rotationSet s (atoi (c_str w)) ∧
    (noNumber (c_str w) = true → onWrite m (sROTATION ++ w) s = rotationSet s 0) := by
  refine ⟨onWrite_rotation m s w hp hp4, fun h => ?_⟩
  rw [onWrite_rotation m s w hp hp4, atoi_noNumber h]

/-- Witness of `rotation_payload_unchecked`: PIN `1111`, payload `abc`. -/
theorem rotation_payload_unchecked_witness :
    onWrite ⟨NUL, []⟩ (sROTATION ++ ['a', 'b', 'c']) (initialState []) =
      rotationSet (initialState []) (atoi (c_str ['a', 'b', 'c'])) ∧
    onWrite ⟨NUL, []⟩ (sROTATION ++ ['a', 'b', 'c']) (initialState []) =
      rotationSet (initialState []) 0 :=
  ⟨(rotation_payload_unchecked ⟨NUL, []⟩ (initialState []) ['a', 'b', 'c']
      (by decide) (by decide)).1,
    (rotation_payload_unchecked ⟨NUL, []⟩ (initialState []) ['a', 'b', 'c']
      (by decide) (by decide)).2 (by decide)⟩

/-- C7 fails as stated: from the factory state the input `ROTATION-` is not
refused; READY is acknowledged and the rotation count, 11 before, is 0 in memory
and in the store. -/
theorem rotation_empty_counterexample :
    onWrite ⟨NUL, []⟩ sROTATION (initialState []) ≠ refused (initialState []) ∧
    onWrite ⟨NUL, []⟩ sROTATION (initialState []) =
      { initialState [] with
        rotations := 0
        preferences := [⟨"funcooker", "rotations", .int 0⟩]
        trace := [.put "funcooker" "rotations" (.int 0), .request "READY"] } := by
  decide

/-! ## The polling cycle and the rotation count -/

theorem sameRotations_unlock (s : State) : SameRotations s (unlock s) := by
  unfold unlock SameRotations
  split <;> simp [updateStoredStatus, State.emit, lookup_put_other]

theorem sameRotations_lock (s : State) : SameRotations s (lock s) := by
  unfold lock SameRotations
  split <;> simp [updateStoredStatus, State.emit, lookup_put_other]

theorem sameRotations_adjust (b : Bool) (s : State) : SameRotations s (adjust b s) := by
  unfold adjust SameRotations
  split <;> simp [State.emit]

theorem sameRotations_trans {s t u : State} (h1 : SameRotations s t) (h2 : SameRotations t u) :
    SameRotations s u :=
  ⟨h2.1.trans h1.1, h2.2.trans h1.2⟩

theorem sameRotations_ite (s : State) (c : Prop) [Decidable c] {u v : State}
    (hu : SameRotations s u) (hv : SameRotations s v) :
    SameRotations s (if c then u else v) := by
  split
  · exact hu
  · exact hv

theorem sameRotations_loop (s : State) : SameRotations s (loop s) := by
  simp only [loop]
  have h1 : SameRotations s
      (if s.unlockRequested then { unlock s with unlockRequested := false } else s) :=
    sameRotations_ite s _ (sameRotations_unlock s) ⟨rfl, rfl⟩
  generalize (if s.unlockRequested then { unlock s with unlockRequested := false } else s)
    = s1 at h1 ⊢
  have h2 : SameRotations s
      (if s1.lockRequested then { lock s1 with lockRequested := false } else s1) :=
    sameRotations_ite s _ (sameRotations_trans h1 (sameRotations_lock s1)) h1
  generalize (if s1.lockRequested then { lock s1 with lockRequested := false } else s1)
    = s2 at h2 ⊢
  have h3 : SameRotations s
      (if s2.cwAdjustmentRequested then
        { adjust false s2 with cwAdjustmentRequested := false } else s2) :=
    sameRotations_ite s _ (sameRotations_trans h2 (sameRotations_adjust false s2)) h2
  generalize (if s2.cwAdjustmentRequested then
      { adjust false s2 with cwAdjustmentRequested := false } else s2) = s3 at h3 ⊢
  exact sameRotations_ite s _ (sameRotations_trans h3 (sameRotations_adjust true s3)) h3

theorem rotationsPositive_of_same {s t : State} (h : SameRotations s t)
    (hs : RotationsPositive s) : RotationsPositive t := by
  refine ⟨h.1 ▸ hs.1, fun v hv => hs.2 v ?_⟩
  rw [← h.2]; exact hv

/-- Outside its ROTATION branch the handler leaves the rotation count as it
is; in that branch the count becomes what `atoi` reads behind the first 9
characters. -/
theorem onWrite_rotations (m : Mem) (value : List Char) (s : State) :
    SameRotations s (onWrite m value s) ∨
      (sROTATION <+: c_str value ∧
        onWrite m value s = rotationSet s (atoi ((c_str value).drop 9))) := by
  unfold onWrite
  simp only []
  split_ifs with h0 h1 h2 h3 h4 h5 h6 h7 h8
  · left; exact ⟨rfl, rfl⟩
  · left; exact ⟨rfl, rfl⟩
  · left; exact ⟨rfl, rfl⟩
  · left; exact ⟨rfl, rfl⟩
  · left; simp [SameRotations, updateStoredStatus, lookup_put_other]
  · left; simp [SameRotations, lookup_put_other]
  · right
    refine ⟨?_, rfl⟩
    simp only [strncmp, decide_eq_true_eq] at h7
    have : (c_str value).take 9 = sROTATION := h7
    exact this ▸ List.take_prefix _ _
  · left; simp [SameRotations, lookup_put_other]
  · left; exact ⟨rfl, rfl⟩
  · left; exact ⟨rfl, rfl⟩

theorem rotationsPositive_initial : RotationsPositive (initialState []) :=
  ⟨by decide, fun v hv => by simp [initialState, Preferences.lookup] at hv⟩

theorem rotationsPositive_rotationSet (s : State) {n : Int} (hn : 0 < n) :
    RotationsPositive (rotationSet s n) := by
  refine ⟨hn, fun v hv => ?_⟩
  simp only [rotationSet, lookup_put_same, Option.some.injEq, PrefValue.int.injEq] at hv
  exact hv ▸ hn

/-! ## C8 -/

/-- C8 (as amended): the invariant `rotations > 0`, in memory and in the store,
is preserved by every polling cycle and by every inbound command, except a
command that begins with `ROTATION-` and whose payload `atoi` reads as a number
that is not positive. -/
theorem rotations_positive_preserved (m : Mem) (value : List Char) (s : State)
    (h : RotationsPositive s) :
    RotationsPositive (loop s) ∧
    (¬ sROTATION <+: c_str value ∨ 0 < atoi ((c_str value).drop 9) →
      RotationsPositive (onWrite m value s)) := by
  refine ⟨rotationsPositive_of_same (sameRotations_loop s) h, fun hv => ?_⟩
  rcases onWrite_rotations m value s with hsame | ⟨hpre, heq⟩
  · exact rotationsPositive_of_same hsame h
  · rcases hv with hv | hv
    · exact absurd hpre hv
    · rw [heq]
      exact rotationsPositive_rotationSet s hv

/-- Witness of `rotations_positive_preserved`: the factory state, input
`ROTATION-7`. -/
theorem rotations_positive_preserved_witness :
    RotationsPositive (loop (initialState [])) ∧
    RotationsPositive (onWrite ⟨NUL, []⟩ (sROTATION ++ ['7']) (initialState [])) :=
  ⟨(rotations_positive_preserved ⟨NUL, []⟩ (sROTATION ++ ['7']) (initialState [])
      rotationsPositive_initial).1,
    (rotations_positive_preserved ⟨NUL, []⟩ (sROTATION ++ ['7']) (initialState [])
      rotationsPositive_initial).2 (Or.inr (by decide))⟩

/-- C8 fails as stated: the factory state has a positive rotation count, and
after the input `ROTATION-0`, which is acknowledged READY, the count is 0 in
memory and in the store. -/
theorem rotations_positive_counterexample :
    RotationsPositive (initialState []) ∧
    ¬ RotationsPositive (onWrite ⟨NUL, []⟩ (sROTATION ++ ['0']) (initialState [])) ∧
    onWrite ⟨NUL, []⟩ (sROTATION ++ ['0']) (initialState []) =
      rotationSet (initialState []) 0 :=
  ⟨rotationsPositive_initial, fun h => absurd h.1 (by decide), by decide⟩

/-! ## Servicing a Lock request -/

theorem onWrite_LOCK (m : Mem) (s : State) : onWrite m sLOCK s = lockAccepted s := by
  have h0 : 0 < sLOCK.length := by decide
  have h1 : c_str sLOCK = sLOCK := by decide
  simp only [onWrite, lockAccepted, strcmp, h0, h1, decide_True, if_true]

theorem stepsOf_append (a b : List Event) : stepsOf (a ++ b) = stepsOf a ++ stepsOf b := by
  induction a with
  | nil => rfl
  | cons e t ih => cases e <;> simp [stepsOf, ih]

theorem statusesOf_append (a b : List Event) :
    statusesOf (a ++ b) = statusesOf a ++ statusesOf b := by
  induction a with
  | nil => rfl
  | cons e t ih => cases e <;> simp [statusesOf, ih]

theorem requestsOf_append (a b : List Event) :
    requestsOf (a ++ b) = requestsOf a ++ requestsOf b := by
  induction a with
  | nil => rfl
  | cons e t ih => cases e <;> simp [requestsOf, ih]

theorem putsOf_append (a b : List Event) : putsOf (a ++ b) = putsOf a ++ putsOf b := by
  induction a with
  | nil => rfl
  | cons e t ih => cases e <;> simp [putsOf, ih]

/-- One polling cycle on an unlocked state in which only a Lock request (and
possibly an Unlock request, which finds nothing to do) is pending. -/
theorem loop_lock (s : State) (hu : s.isLocked = false) (hl : s.lockRequested = true)
    (hcw : s.cwAdjustmentRequested = false) (hccw : s.ccwAdjustmentRequested = false) :
    loop s =
      { s with
        isLocked := true
        unlockRequested := false
        lockRequested := false
        preferences := s.preferences.put "funlocker" "locked" (.bool true)
        trace := s.trace ++ lockOutput s.rotations } := by
  obtain ⟨isL, u, l, cw, ccw, rot, pin, name, prefs, tr⟩ := s
  simp only at hu hl hcw hccw
  subst hu hl hcw hccw
  cases u <;>
    simp [loop, lock, unlock, updateStoredStatus, State.emit, lockOutput]

/-- One polling cycle on a locked state in which only a Lock request is
pending: the flag is cleared, nothing else happens. -/
theorem loop_lock_locked (s : State) (hu : s.isLocked = true) (hl : s.lockRequested = true)
    (hun : s.unlockRequested = false)
    (hcw : s.cwAdjustmentRequested = false) (hccw : s.ccwAdjustmentRequested = false) :
    loop s = { s with lockRequested := false } := by
  obtain ⟨isL, u, l, cw, ccw, rot, pin, name, prefs, tr⟩ := s
  simp only at hu hl hun hcw hccw
  subst hu hl hun hcw hccw
  simp [loop, lock]

/-! ## C9 -/

/-- C9 (as amended): with a NUL-free 4-character current PIN, for every integer
`n` with `-1048576 ≤ n < 1048576` (so that `stepsPerRevolution * n` is an
`int`), handling `ROTATION-n` sets the rotation count to `n` and acknowledges
READY, and the next Lock, requested and serviced from the unlocked state with no
adjustment pending, sends the stepper a single move of `stepsPerRevolution * n`
steps and leaves the lock locked. -/
theorem rotation_then_lock (m m1 : Mem) (s : State) (n : Int)
    (hp : NulFree s.currentPin) (hp4 : s.currentPin.length = 4)
    (hlo : -1048576 ≤ n) (hhi : n < 1048576)
    (hu : s.isLocked = false) (hcw : s.cwAdjustmentRequested = false)
    (hccw : s.ccwAdjustmentRequested = false) :
    onWrite m (sROTATION ++ decimalInt n) s = rotationSet s n ∧
    stepsOf (loop (onWrite m1 sLOCK (rotationSet s n))).trace =
      stepsOf s.trace ++ [stepsPerRevolution * n] ∧
    (loop (onWrite m1 sLOCK (rotationSet s n))).isLocked = true := by
  obtain ⟨ha, hnf⟩ := atoi_decimalInt n (by unfold INT_MIN; omega) (by unfold INT_MAX; omega)
  have hw : wrap32 (stepsPerRevolution * n) = stepsPerRevolution * n := by
    unfold wrap32 stepsPerRevolution; omega
  refine ⟨?_, ?_, ?_⟩
  · rw [onWrite_rotation m s _ hp hp4, c_str_of_nulFree hnf, ha]
  · rw [onWrite_LOCK, loop_lock (lockAccepted (rotationSet s n)) hu rfl hcw hccw]
    simp [stepsOf_append, lockOutput, stepsOf, lockAccepted, rotationSet, hw]
  · rw [onWrite_LOCK, loop_lock (lockAccepted (rotationSet s n)) hu rfl hcw hccw]

/-- Witness of `rotation_then_lock`: the factory state, `n = 7`. -/
theorem rotation_then_lock_witness :
    onWrite ⟨NUL, []⟩ (sROTATION ++ decimalInt 7) (initialState []) =
      rotationSet (initialState []) 7 ∧
    stepsOf (loop (onWrite ⟨NUL, []⟩ sLOCK (rotationSet (initialState []) 7))).trace =
      stepsOf (initialState []).trace ++ [stepsPerRevolution * 7] ∧
    (loop (onWrite ⟨NUL, []⟩ sLOCK (rotationSet (initialState []) 7))).isLocked = true :=
  rotation_then_lock ⟨NUL, []⟩ ⟨NUL, []⟩ (initialState []) 7 (by decide) (by decide)
    (by decide) (by decide) rfl rfl rfl

/-- C9 fails as stated at `n = 1048576`, which is an `int`: the rotation count
becomes 1048576, and the next Lock moves the stepper by
`stepsPerRevolution * 1048576` wrapped to 32 bits, that is by -2147483648 steps. -/
theorem rotation_then_lock_counterexample :
    INT_MIN ≤ 1048576 ∧ (1048576 : Int) ≤ INT_MAX ∧
    onWrite ⟨NUL, []⟩ (sROTATION ++ ['1', '0', '4', '8', '5', '7', '6']) (initialState []) =
      rotationSet (initialState []) 1048576 ∧
    stepsOf (loop (onWrite ⟨NUL, []⟩ sLOCK (rotationSet (initialState []) 1048576))).trace =
      [-2147483648] ∧
    stepsOf (loop (onWrite ⟨NUL, []⟩ sLOCK (rotationSet (initialState []) 1048576))).trace ≠
      [stepsPerRevolution * 1048576] := by
  decide

/-! ## C10 -/

/-- C10: starting unlocked with no adjustment pending, two `LOCK` inputs, each followed by a polling cycle, actuate once: the first cycle leaves
the lock locked with `locked = true` written, the second input is acknowledged
READY, and the second cycle adds nothing but leaves the state of the first with
that acknowledgement; over both cycles there is one stepper move, one LOCKING
and one LOCKED announcement and one write to the store. -/
theorem lock_twice_actuates_once (m1 m2 : Mem) (s : State)
    (hu : s.isLocked = false) (hcw : s.cwAdjustmentRequested = false)
    (hccw : s.ccwAdjustmentRequested = false) :
    (loop (onWrite m1 sLOCK s)).isLocked = true ∧
    (loop (onWrite m1 sLOCK s)).preferences =
      s.preferences.put "funlocker" "locked" (.bool true) ∧
    onWrite m2 sLOCK (loop (onWrite m1 sLOCK s)) = lockAccepted (loop (onWrite m1 sLOCK s)) ∧
    loop (onWrite m2 sLOCK (loop (onWrite m1 sLOCK s))) =
      { loop (onWrite m1 sLOCK s) with
        trace := (loop (onWrite m1 sLOCK s)).trace ++ [.request "READY"] } ∧
    stepsOf (loop (onWrite m2 sLOCK (loop (onWrite m1 sLOCK s)))).trace =
      stepsOf s.trace ++ [wrap32 (stepsPerRevolution * s.rotations)] ∧
    statusesOf (loop (onWrite m2 sLOCK (loop (onWrite m1 sLOCK s)))).trace =
      statusesOf s.trace ++ ["LOCKING", "LOCKED"] ∧
    putsOf (loop (onWrite m2 sLOCK (loop (onWrite m1 sLOCK s)))).trace =
      putsOf s.trace ++ [("funlocker", "locked", .bool true)] := by
  have e1 : loop (onWrite m1 sLOCK s) =
      { s with
        isLocked := true
        unlockRequested := false
        lockRequested := false
        preferences := s.preferences.put "funlocker" "locked" (.bool true)
        trace := s.trace ++ [.request "READY"] ++ lockOutput s.rotations } := by
    rw [onWrite_LOCK, loop_lock (lockAccepted s) hu rfl hcw hccw]
    rfl
  have e2 : loop (onWrite m2 sLOCK (loop (onWrite m1 sLOCK s))) =
      { loop (onWrite m1 sLOCK s) with
        trace := (loop (onWrite m1 sLOCK s)).trace ++ [.request "READY"] } := by
    rw [onWrite_LOCK, loop_lock_locked (lockAccepted (loop (onWrite m1 sLOCK s)))
      (by rw [e1]; rfl) rfl (by rw [e1]; rfl) (by rw [e1]; exact hcw) (by rw [e1]; exact hccw)]
    rw [e1]
    rfl
  refine ⟨by rw [e1], by rw [e1], onWrite_LOCK m2 _, e2, ?_, ?_, ?_⟩
  · rw [e2, e1]
    simp [stepsOf_append, lockOutput, stepsOf]
  · rw [e2, e1]
    simp [statusesOf_append, lockOutput, statusesOf]
  · rw [e2, e1]
    simp [putsOf_append, lockOutput, putsOf]

/-- Witness of `lock_twice_actuates_once`: the factory state. -/
theorem lock_twice_actuates_once_witness :
    (loop (onWrite ⟨NUL, []⟩ sLOCK (initialState []))).isLocked = true ∧
    (loop (onWrite ⟨NUL, []⟩ sLOCK (initialState []))).preferences =
      (initialState []).preferences.put "funlocker" "locked" (.bool true) ∧
    onWrite ⟨NUL, []⟩ sLOCK (loop (onWrite ⟨NUL, []⟩ sLOCK (initialState []))) =
      lockAccepted (loop (onWrite ⟨NUL, []⟩ sLOCK (initialState []))) ∧
    loop (onWrite ⟨NUL, []⟩ sLOCK (loop (onWrite ⟨NUL, []⟩ sLOCK (initialState [])))) =
      { loop (onWrite ⟨NUL, []⟩ sLOCK (initialState [])) with
        trace := (loop (onWrite ⟨NUL, []⟩ sLOCK (initialState []))).trace ++
          [.request "READY"] } ∧
    stepsOf (loop (onWrite ⟨NUL, []⟩ sLOCK
        (loop (onWrite ⟨NUL, []⟩ sLOCK (initialState []))))).trace =
      stepsOf (initialState []).trace ++
        [wrap32 (stepsPerRevolution * (initialState []).rotations)] ∧
    statusesOf (loop (onWrite ⟨NUL, []⟩ sLOCK
        (loop (onWrite ⟨NUL, []⟩ sLOCK (initialState []))))).trace =
      statusesOf (initialState []).trace ++ ["LOCKING", "LOCKED"] ∧
    putsOf (loop (onWrite ⟨NUL, []⟩ sLOCK
        (loop (onWrite ⟨NUL, []⟩ sLOCK (initialState []))))).trace =
      putsOf (initialState []).trace ++ [("funlocker", "locked", .bool true)] :=
  lock_twice_actuates_once ⟨NUL, []⟩ ⟨NUL, []⟩ (initialState []) rfl rfl rfl

/-! ## The polling cycle as a drain of the pending flags -/

/-- One polling cycle performs the drained actions in order and clears the
flags. -/
theorem loop_drain (s : State) :
    loop s = clearPending ((drain s).foldl (fun t a => perform a t) s) := by
  obtain ⟨isL, u, l, cw, ccw, rot, pin, name, prefs, tr⟩ := s
  cases u <;> cases l <;> cases cw <;> cases ccw <;> cases isL <;>
    simp [loop, drain, perform, clearPending, lock, unlock, adjust, updateStoredStatus,
      State.emit]

theorem drain_length_le (s : State) : (drain s).length ≤ 4 := by
  unfold drain
  split <;> split <;> split <;> split <;> simp

/-! ## C12 -/

/-- C12: for every state, hence for each of the 16 combinations of the pending
flags, one polling cycle performs the actions whose flag is set, each once, in
the order Unlock, Lock, AdjustCW, AdjustCCW, and leaves the four flags
cleared. -/
theorem polling_cycle_drains (s : State) :
    loop s = clearPending ((drain s).foldl (fun t a => perform a t) s) ∧
    pending (loop s) = (false, false, false, false) ∧
    (drain s).Sublist [Action.unlock, Action.lock, Action.adjustCW, Action.adjustCCW] ∧
    (Action.unlock ∈ drain s ↔ s.unlockRequested = true) ∧
    (Action.lock ∈ drain s ↔ s.lockRequested = true) ∧
    (Action.adjustCW ∈ drain s ↔ s.cwAdjustmentRequested = true) ∧
    (Action.adjustCCW ∈ drain s ↔ s.ccwAdjustmentRequested = true) := by
  refine ⟨loop_drain s, by rw [loop_drain s]; rfl, ?_⟩
  obtain ⟨isL, u, l, cw, ccw, rot, pin, name, prefs, tr⟩ := s
  cases u <;> cases l <;> cases cw <;> cases ccw <;> simp [drain]

/-! ## The branches of the handler -/

/-- The handler takes `<pin>-CW` as a CW adjustment request for every NUL-free
PIN. -/
theorem onWrite_cw (m : Mem) (s : State) (hp : NulFree s.currentPin) :
    onWrite m (s.currentPin ++ sCW) s = cwAccepted s := by
  have hv : ∀ k, NulFree k → c_str (s.currentPin ++ k) = s.currentPin ++ k :=
    fun k hk => c_str_pin_append hp hk
  have h0 : 0 < (s.currentPin ++ sCW).length := by simp [sCW]
  have h1 : s.currentPin ++ sCW ≠ sLOCK := pin_dash_ne_LOCK _ _
  have h2 : s.currentPin ++ sCW ≠ s.currentPin ++ sUNLOCK := by
    intro e; exact absurd (List.append_cancel_left e) (by decide)
  simp only [onWrite, cwAccepted, strcmp, h0, hv sCW (by decide), hv sUNLOCK (by decide), h1, h2,
    decide_True, decide_False, if_true, if_false, Bool.false_eq_true]

/-- The handler takes `<pin>-CCW` as a CCW adjustment request for every
NUL-free PIN. -/
theorem onWrite_ccw (m : Mem) (s : State) (hp : NulFree s.currentPin) :
    onWrite m (s.currentPin ++ sCCW) s = ccwAccepted s := by
  have hv : ∀ k, NulFree k → c_str (s.currentPin ++ k) = s.currentPin ++ k :=
    fun k hk => c_str_pin_append hp hk
  have h0 : 0 < (s.currentPin ++ sCCW).length := by simp [sCCW]
  have h1 : s.currentPin ++ sCCW ≠ sLOCK := pin_dash_ne_LOCK _ _
  have h2 : s.currentPin ++ sCCW ≠ s.currentPin ++ sUNLOCK := by
    intro e; exact absurd (List.append_cancel_left e) (by decide)
  have h3 : s.currentPin ++ sCCW ≠ s.currentPin ++ sCW := by
    intro e; exact absurd (List.append_cancel_left e) (by decide)
  simp only [onWrite, ccwAccepted, strcmp, h0, hv sCCW (by decide), hv sCW (by decide),
    hv sUNLOCK (by decide), h1, h2, h3,
    decide_True, decide_False, if_true, if_false, Bool.false_eq_true]

/-- The handler takes `<pin>-FLIP` into its FLIP branch for every NUL-free
PIN. -/
theorem onWrite_flip (m : Mem) (s : State) (hp : NulFree s.currentPin) :
    onWrite m (s.currentPin ++ sFLIP) s = flipped s := by
  have hv : ∀ k, NulFree k → c_str (s.currentPin ++ k) = s.currentPin ++ k :=
    fun k hk => c_str_pin_append hp hk
  have h0 : 0 < (s.currentPin ++ sFLIP).length := by simp [sFLIP]
  have h1 : s.currentPin ++ sFLIP ≠ sLOCK := pin_dash_ne_LOCK _ _
  have h2 : s.currentPin ++ sFLIP ≠ s.currentPin ++ sUNLOCK := by
    intro e; exact absurd (List.append_cancel_left e) (by decide)
  have h3 : s.currentPin ++ sFLIP ≠ s.currentPin ++ sCW := by
    intro e; exact absurd (List.append_cancel_left e) (by decide)
  have h4 : s.currentPin ++ sFLIP ≠ s.currentPin ++ sCCW := by
    intro e; exact absurd (List.append_cancel_left e) (by decide)
  simp only [onWrite, flipped, updateStoredStatus, strcmp, h0, hv sFLIP (by decide),
    hv sCCW (by decide), hv sCW (by decide), hv sUNLOCK (by decide), h1, h2, h3, h4,
    decide_True, decide_False, if_true, if_false, Bool.false_eq_true, List.append_assoc,
    List.cons_append, List.nil_append]

/-- Every effect of the handler is one of ten: nothing (empty input), one of
the four pending flags set, the FLIP branch, one of the three configuration
writes, or the refusal. -/
theorem onWrite_effects (m : Mem) (value : List Char) (s : State) :
    onWrite m value s = s ∨ onWrite m value s = lockAccepted s ∨
    onWrite m value s = unlockAccepted s ∨ onWrite m value s = cwAccepted s ∨
    onWrite m value s = ccwAccepted s ∨
    (c_str value = c_str (s.currentPin ++ sFLIP) ∧ onWrite m value s = flipped s) ∨
    (onWrite m value s = pinChanged s (newPinTemp m value)) ∨
    (∃ n, onWrite m value s = rotationSet s n) ∨
    (∃ v, onWrite m value s = nameStored s v) ∨ onWrite m value s = refused s := by
  generalize hr : onWrite m value s = r
  unfold onWrite at hr
  simp only [] at hr
  split_ifs at hr with h0 h1 h2 h3 h4 h5 h6 h7 h8 <;> subst hr
  · right; left; rfl
  · right; right; left; rfl
  · right; right; right; left; rfl
  · right; right; right; right; left; rfl
  · right; right; right; right; right; left
    refine ⟨by simpa [strcmp] using h5, ?_⟩
    simp [flipped, updateStoredStatus]
  · right; right; right; right; right; right; left; rfl
  · right; right; right; right; right; right; right; left; exact ⟨_, rfl⟩
  · right; right; right; right; right; right; right; right; left; exact ⟨_, rfl⟩
  · right; right; right; right; right; right; right; right; right; rfl
  · left; rfl

/-! ## C13 -/

/-- C13: for each kind of action and every NUL-free PIN, the valid request of
that kind (`<pin>-UNLOCK`, `LOCK`, `<pin>-CW`, `<pin>-CCW`) handled twice before
the polling cycle leaves the pending flags as after the first, and the polling
cycle performs a drained sequence that holds the action once. -/
theorem requests_coalesce (m1 m2 : Mem) (s : State) (hp : NulFree s.currentPin) :
    Coalesced m1 m2 (s.currentPin ++ sUNLOCK) Action.unlock s ∧
    Coalesced m1 m2 sLOCK Action.lock s ∧
    Coalesced m1 m2 (s.currentPin ++ sCW) Action.adjustCW s ∧
    Coalesced m1 m2 (s.currentPin ++ sCCW) Action.adjustCCW s := by
  have hu1 := onWrite_unlock m1 s hp
  have hu2 := onWrite_unlock m2 (unlockAccepted s) hp
  have hl1 := onWrite_LOCK m1 s
  have hl2 := onWrite_LOCK m2 (lockAccepted s)
  have hc1 := onWrite_cw m1 s hp
  have hc2 := onWrite_cw m2 (cwAccepted s) hp
  have hd1 := onWrite_ccw m1 s hp
  have hd2 := onWrite_ccw m2 (ccwAccepted s) hp
  have e1 : (unlockAccepted s).currentPin = s.currentPin := rfl
  have e2 : (cwAccepted s).currentPin = s.currentPin := rfl
  have e3 : (ccwAccepted s).currentPin = s.currentPin := rfl
  rw [e1] at hu2
  rw [e2] at hc2
  rw [e3] at hd2
  refine ⟨⟨?_, ?_, ?_, loop_drain _⟩, ⟨?_, ?_, ?_, loop_drain _⟩, ⟨?_, ?_, ?_, loop_drain _⟩,
    ⟨?_, ?_, ?_, loop_drain _⟩⟩
  · rw [hu1, hu2]; rfl
  · rw [hu1, hu2]; rfl
  · rw [hu1, hu2]; simp [drain, unlockAccepted]; split <;> split <;> split <;> simp
  · rw [hl1, hl2]; rfl
  · rw [hl1, hl2]; rfl
  · rw [hl1, hl2]; simp [drain, lockAccepted]; split <;> split <;> split <;> simp
  · rw [hc1, hc2]; rfl
  · rw [hc1, hc2]; rfl
  · rw [hc1, hc2]; simp [drain, cwAccepted]; split <;> split <;> split <;> simp
  · rw [hd1, hd2]; rfl
  · rw [hd1, hd2]; rfl
  · rw [hd1, hd2]; simp [drain, ccwAccepted]; split <;> split <;> split <;> simp

/-- Witness of `requests_coalesce`: the factory state. -/
theorem requests_coalesce_witness :
    Coalesced ⟨NUL, []⟩ ⟨NUL, []⟩ ((initialState []).currentPin ++ sUNLOCK) Action.unlock
      (initialState []) ∧
    Coalesced ⟨NUL, []⟩ ⟨NUL, []⟩ sLOCK Action.lock (initialState []) ∧
    Coalesced ⟨NUL, []⟩ ⟨NUL, []⟩ ((initialState []).currentPin ++ sCW) Action.adjustCW
      (initialState []) ∧
    Coalesced ⟨NUL, []⟩ ⟨NUL, []⟩ ((initialState []).currentPin ++ sCCW) Action.adjustCCW
      (initialState []) :=
  requests_coalesce ⟨NUL, []⟩ ⟨NUL, []⟩ (initialState []) (by decide)

/-! ## C14 -/

/-- C14 (as amended): when `stepsPerRevolution * rotations` is an `int`, `lock`
in the unlocked state announces LOCKING and then LOCKED and nothing else, sends
the stepper one move of `stepsPerRevolution * rotations` steps, sets the state
to locked and writes `locked = true`; when `-stepsPerRevolution * rotations` is
an `int`, `unlock` in the locked state announces UNLOCKING and then UNLOCKED and
nothing else, sends the stepper one move of `-stepsPerRevolution * rotations`
steps, sets the state to unlocked and writes `locked = false`. -/
theorem lock_unlock_transitions (s : State) :
    (s.isLocked = false → INT_MIN ≤ stepsPerRevolution * s.rotations →
      stepsPerRevolution * s.rotations ≤ INT_MAX →
      statusesOf (lock s).trace = statusesOf s.trace ++ ["LOCKING", "LOCKED"] ∧
      stepsOf (lock s).trace = stepsOf s.trace ++ [stepsPerRevolution * s.rotations] ∧
      (lock s).isLocked = true ∧
      putsOf (lock s).trace = putsOf s.trace ++ [("funlocker", "locked", .bool true)] ∧
      storedLocked (lock s).preferences = some (.bool true)) ∧
    (s.isLocked = true → INT_MIN ≤ -stepsPerRevolution * s.rotations →
      -stepsPerRevolution * s.rotations ≤ INT_MAX →
      statusesOf (unlock s).trace = statusesOf s.trace ++ ["UNLOCKING", "UNLOCKED"] ∧
      stepsOf (unlock s).trace = stepsOf s.trace ++ [-stepsPerRevolution * s.rotations] ∧
      (unlock s).isLocked = false ∧
      putsOf (unlock s).trace = putsOf s.trace ++ [("funlocker", "locked", .bool false)] ∧
      storedLocked (unlock s).preferences = some (.bool false)) := by
  constructor
  · intro hu hlo hhi
    have hw : wrap32 (stepsPerRevolution * s.rotations) = stepsPerRevolution * s.rotations := by
      unfold INT_MIN at hlo; unfold INT_MAX at hhi; unfold wrap32; omega
    simp [lock, hu, updateStoredStatus, State.emit, statusesOf_append, stepsOf_append,
      putsOf_append, statusesOf, stepsOf, putsOf, storedLocked, lookup_put_same, hw]
  · intro hu hlo hhi
    have hw : wrap32 (-stepsPerRevolution * s.rotations) = -stepsPerRevolution * s.rotations := by
      unfold INT_MIN at hlo; unfold INT_MAX at hhi; unfold wrap32; omega
    rw [neg_mul] at hw
    simp [unlock, hu, updateStoredStatus, State.emit, statusesOf_append, stepsOf_append,
      putsOf_append, statusesOf, stepsOf, putsOf, storedLocked, lookup_put_same, hw]

/-- Witness of `lock_unlock_transitions`: the factory state for Lock, the
factory state after one serviced `LOCK` for Unlock. -/
theorem lock_unlock_transitions_witness :
    (statusesOf (lock (initialState [])).trace =
        statusesOf (initialState []).trace ++ ["LOCKING", "LOCKED"] ∧
      stepsOf (lock (initialState [])).trace =
        stepsOf (initialState []).trace ++ [stepsPerRevolution * (initialState []).rotations] ∧
      (lock (initialState [])).isLocked = true ∧
      putsOf (lock (initialState [])).trace =
        putsOf (initialState []).trace ++ [("funlocker", "locked", .bool true)] ∧
      storedLocked (lock (initialState [])).preferences = some (.bool true)) ∧
    (statusesOf (unlock lockedOnce).trace =
        statusesOf lockedOnce.trace ++ ["UNLOCKING", "UNLOCKED"] ∧
      stepsOf (unlock lockedOnce).trace =
        stepsOf lockedOnce.trace ++ [-stepsPerRevolution * lockedOnce.rotations] ∧
      (unlock lockedOnce).isLocked = false ∧
      putsOf (unlock lockedOnce).trace =
        putsOf lockedOnce.trace ++ [("funlocker", "locked", .bool false)] ∧
      storedLocked (unlock lockedOnce).preferences = some (.bool false)) :=
  ⟨(lock_unlock_transitions (initialState [])).1 rfl (by decide) (by decide),
    (lock_unlock_transitions lockedOnce).2 (by decide) (by decide) (by decide)⟩

/-- C14 fails as stated at a rotation count of 1048576, which the input
`ROTATION-1048576` sets: `lock` in the unlocked state sends the stepper
`stepsPerRevolution * 1048576` wrapped to 32 bits, that is -2147483648 steps. -/
theorem lock_unlock_transitions_counterexample :
    bigRotations.rotations = 1048576 ∧ bigRotations.isLocked = false ∧
    stepsOf (lock bigRotations).trace = [-2147483648] ∧
    stepsOf (lock bigRotations).trace ≠
      stepsOf bigRotations.trace ++ [stepsPerRevolution * bigRotations.rotations] := by
  decide

/-! ## C15 -/

/-- C15: for every NUL-free current PIN and either lock state, the input
`<pin>-FLIP` toggles the lock state, sends the stepper nothing, leaves the
pending flags as they are, announces the resolved status, acknowledges READY and
writes the new lock state to the store; handled twice, it restores the lock
state and leaves that lock state in the store. -/
theorem flip_toggles (m m1 : Mem) (s : State) (hp : NulFree s.currentPin) :
    (onWrite m (s.currentPin ++ sFLIP) s).isLocked = (!s.isLocked) ∧
    stepsOf (onWrite m (s.currentPin ++ sFLIP) s).trace = stepsOf s.trace ∧
    pending (onWrite m (s.currentPin ++ sFLIP) s) = pending s ∧
    statusesOf (onWrite m (s.currentPin ++ sFLIP) s).trace =
      statusesOf s.trace ++ [if s.isLocked then "UNLOCKED" else "LOCKED"] ∧
    requestsOf (onWrite m (s.currentPin ++ sFLIP) s).trace = requestsOf s.trace ++ ["READY"] ∧
    storedLocked (onWrite m (s.currentPin ++ sFLIP) s).preferences =
      some (.bool (!s.isLocked)) ∧
    (onWrite m1 (s.currentPin ++ sFLIP) (onWrite m (s.currentPin ++ sFLIP) s)).isLocked =
      s.isLocked ∧
    storedLocked
        (onWrite m1 (s.currentPin ++ sFLIP) (onWrite m (s.currentPin ++ sFLIP) s)).preferences =
      some (.bool s.isLocked) := by
  have h1 := onWrite_flip m s hp
  have h2 := onWrite_flip m1 (flipped s) hp
  have e : (flipped s).currentPin = s.currentPin := rfl
  rw [e] at h2
  rw [h1, h2]
  refine ⟨rfl, ?_, rfl, ?_, ?_, ?_, ?_, ?_⟩
  · simp [flipped, stepsOf_append, stepsOf]
  · cases h : s.isLocked <;> simp [flipped, statusesOf_append, statusesOf, resolvedStatus, h]
  · simp [flipped, requestsOf_append, requestsOf]
  · simp [flipped, storedLocked, lookup_put_same]
  · simp [flipped]
  · simp [flipped, storedLocked, lookup_put_same]

/-- Witness of `flip_toggles`: the factory state. -/
theorem flip_toggles_witness :
    (onWrite ⟨NUL, []⟩ ((initialState []).currentPin ++ sFLIP) (initialState [])).isLocked =
      (!(initialState []).isLocked) ∧
    storedLocked (onWrite ⟨NUL, []⟩ ((initialState []).currentPin ++ sFLIP)
      (onWrite ⟨NUL, []⟩ ((initialState []).currentPin ++ sFLIP)
        (initialState []))).preferences = some (.bool (initialState []).isLocked) :=
  ⟨(flip_toggles ⟨NUL, []⟩ ⟨NUL, []⟩ (initialState []) (by decide)).1,
    (flip_toggles ⟨NUL, []⟩ ⟨NUL, []⟩ (initialState []) (by decide)).2.2.2.2.2.2.2⟩

/-! ## C16 -/

/-- C16: booting over an empty store gives PIN `1111`, name `Funlocker`, 11
rotations, the lock state unlocked, no pending flag, and UNLOCKED as the one
status announced, followed by READY. -/
theorem boot_empty_store :
    boot [] =
      { isLocked := false
        unlockRequested := false
        lockRequested := false
        cwAdjustmentRequested := false
        ccwAdjustmentRequested := false
        rotations := 11
        currentPin := ['1', '1', '1', '1']
        deviceName := ['F', 'u', 'n', 'l', 'o', 'c', 'k', 'e', 'r']
        preferences := []
        trace := [.buzzer false, .status "UNLOCKED", .request "READY"] } ∧
    statusesOf (boot []).trace = ["UNLOCKED"] := by
  decide

/-! ## C17 -/

/-- A command without `-` is no PIN command of a NUL-free PIN, and a command
of fewer than 8 characters does not agree with `<pin>-NEWPIN-` on the first
12. -/
theorem bare_ne_pin_cmd {p v : List Char} (hp : NulFree p) (hv : '-' ∉ v) (hl : v.length < 8) :
    (∀ k, NulFree k → '-' ∈ k → v ≠ c_str (p ++ k)) ∧
    v.take 12 ≠ (c_str (p ++ sNEWPIN)).take 12 := by
  constructor
  · intro k hk hmem e
    rw [c_str_pin_append hp hk] at e
    apply hv
    rw [e]
    exact List.mem_append_right _ hmem
  · rw [c_str_pin_append hp (by decide)]
    intro e
    have := congrArg List.length e
    simp [sNEWPIN] at this
    omega

/-- The handler refuses a bare command word: a NUL-free, non-empty word
without `-`, shorter than 8 characters, other than `LOCK` and not the start of
`ROTATION-` or `NAME-`. -/
theorem onWrite_bare (m : Mem) (s : State) (v : List Char) (hp : NulFree s.currentPin)
    (hn : NulFree v) (h0 : v ≠ []) (hv : '-' ∉ v) (hl : v.length < 8) (h1 : v ≠ sLOCK)
    (h7 : v.take 9 ≠ sROTATION.take 9) (h8 : v.take 5 ≠ sNAME.take 5) :
    onWrite m v s = refused s := by
  obtain ⟨hk, h6⟩ := bare_ne_pin_cmd hp hv hl
  have hc : c_str v = v := c_str_of_nulFree hn
  apply onWrite_refused m v s h0
  · rw [hc]; exact h1
  · rw [hc]; exact hk sUNLOCK (by decide) (by decide)
  · rw [hc]; exact hk sCW (by decide) (by decide)
  · rw [hc]; exact hk sCCW (by decide) (by decide)
  · rw [hc]; exact hk sFLIP (by decide) (by decide)
  · rw [hc]; exact h6
  · rw [hc]; exact h7
  · rw [hc]; exact h8

/-- C17: for every current PIN and lock state the input `LOCK` is accepted as a
Lock request (flag set, READY acknowledged), and for every NUL-free current PIN
the bare inputs `UNLOCK`, `CW`, `CCW` and `FLIP` are refused with ERROR. -/
theorem lock_needs_no_pin (m : Mem) (s : State) :
    onWrite m sLOCK s = lockAccepted s ∧
    (lockAccepted s).lockRequested = true ∧
    (lockAccepted s).trace = s.trace ++ [.request "READY"] ∧
    (NulFree s.currentPin →
      onWrite m ['U', 'N', 'L', 'O', 'C', 'K'] s = refused s ∧
      onWrite m ['C', 'W'] s = refused s ∧
      onWrite m ['C', 'C', 'W'] s = refused s ∧
      onWrite m ['F', 'L', 'I', 'P'] s = refused s) := by
  refine ⟨onWrite_LOCK m s, rfl, rfl, fun hp => ⟨?_, ?_, ?_, ?_⟩⟩
  · exact onWrite_bare m s _ hp (by decide) (by decide) (by decide) (by decide) (by decide)
      (by decide) (by decide)
  · exact onWrite_bare m s _ hp (by decide) (by decide) (by decide) (by decide) (by decide)
      (by decide) (by decide)
  · exact onWrite_bare m s _ hp (by decide) (by decide) (by decide) (by decide) (by decide)
      (by decide) (by decide)
  · exact onWrite_bare m s _ hp (by decide) (by decide) (by decide) (by decide) (by decide)
      (by decide) (by decide)

/-- Witness of `lock_needs_no_pin`: the factory state. -/
theorem lock_needs_no_pin_witness :
    onWrite ⟨NUL, []⟩ sLOCK (initialState []) = lockAccepted (initialState []) ∧
    onWrite ⟨NUL, []⟩ ['U', 'N', 'L', 'O', 'C', 'K'] (initialState []) =
      refused (initialState []) ∧
    onWrite ⟨NUL, []⟩ ['C', 'W'] (initialState []) = refused (initialState []) ∧
    onWrite ⟨NUL, []⟩ ['C', 'C', 'W'] (initialState []) = refused (initialState []) ∧
    onWrite ⟨NUL, []⟩ ['F', 'L', 'I', 'P'] (initialState []) = refused (initialState []) :=
  ⟨(lock_needs_no_pin ⟨NUL, []⟩ (initialState [])).1,
    (lock_needs_no_pin ⟨NUL, []⟩ (initialState [])).2.2.2 (by decide)⟩

/-! ## C18 -/

/-- C18 (as amended): for every input and every PIN, the handler leaves
`isLocked` as it is unless the input is the FLIP command, whose branch toggles
`isLocked`, announces it and writes it to the store; every other effect is
nothing at all (empty input), one pending flag set, one configuration field
written (the PIN in memory and store, the rotation count in memory and store,
the name in the store), or the refusal; each but the first with its
acknowledgement. -/
theorem handler_lock_state (m : Mem) (value : List Char) (s : State) :
    ((onWrite m value s).isLocked = s.isLocked ∨
      (c_str value = c_str (s.currentPin ++ sFLIP) ∧ onWrite m value s = flipped s)) ∧
    (onWrite m value s = s ∨ onWrite m value s = lockAccepted s ∨
      onWrite m value s = unlockAccepted s ∨ onWrite m value s = cwAccepted s ∨
      onWrite m value s = ccwAccepted s ∨
      (c_str value = c_str (s.currentPin ++ sFLIP) ∧ onWrite m value s = flipped s) ∨
      (onWrite m value s = pinChanged s (newPinTemp m value)) ∨
      (∃ n, onWrite m value s = rotationSet s n) ∨
      (∃ v, onWrite m value s = nameStored s v) ∨ onWrite m value s = refused s) := by
  refine ⟨?_, onWrite_effects m value s⟩
  rcases onWrite_effects m value s with h | h | h | h | h | h | h | ⟨n, h⟩ | ⟨v, h⟩ | h
  · left; rw [h]
  · left; rw [h]; rfl
  · left; rw [h]; rfl
  · left; rw [h]; rfl
  · left; rw [h]; rfl
  · right; exact h
  · left; rw [h]; rfl
  · left; rw [h]; rfl
  · left; rw [h]; rfl
  · left; rw [h]; rfl

/-- C18 fails as stated: from the factory state, which is unlocked, the input
`1111-FLIP` leaves `isLocked = true` behind, set by the handler itself. -/
theorem handler_lock_state_counterexample :
    (initialState []).isLocked = false ∧
    (onWrite ⟨NUL, []⟩ (['1', '1', '1', '1'] ++ sFLIP) (initialState [])).isLocked = true ∧
    stepsOf (onWrite ⟨NUL, []⟩ (['1', '1', '1', '1'] ++ sFLIP) (initialState [])).trace = [] := by
  decide

/-! ## C19 -/

/-- The handler changes the PIN in its NEWPIN branch only. -/
theorem onWrite_pin_frame (m : Mem) (value : List Char) (s : State) :
    (onWrite m value s).currentPin = s.currentPin ∨
      ((c_str value).take 12 = (c_str (s.currentPin ++ sNEWPIN)).take 12 ∧
        onWrite m value s = pinChanged s (newPinTemp m value)) := by
  generalize hr : onWrite m value s = r
  unfold onWrite at hr
  simp only [] at hr
  split_ifs at hr with h0 h1 h2 h3 h4 h5 h6 h7 h8 <;> subst hr
  · left; rfl
  · left; rfl
  · left; rfl
  · left; rfl
  · left; rfl
  · right; exact ⟨by simpa [strncmp] using h6, rfl⟩
  · left; rfl
  · left; rfl
  · left; rfl
  · left; rfl

/-- The new PIN read from `temp` for a 4-character PIN and a payload that
begins with four NUL-free characters `q`: these four, followed by the stale byte
`temp[4]` when that is not NUL. -/
theorem newPinTemp_long (m : Mem) {p q : List Char} (r : List Char) (hp4 : p.length = 4)
    (hq : NulFree q) (hq4 : q.length = 4) :
    newPinTemp m (p ++ sNEWPIN ++ (q ++ r)) = q ++ c_str [m.temp4] := by
  have hd : (p ++ sNEWPIN ++ (q ++ r) ++ NUL :: m.past).drop 12 = q ++ (r ++ NUL :: m.past) := by
    rw [List.append_assoc (p ++ sNEWPIN), List.append_assoc q]
    exact List.drop_left' (by simp [hp4, sNEWPIN])
  unfold newPinTemp strncpy4
  simp only [hd, List.take_left' hq4, c_str_of_nulFree hq, hq4, Nat.sub_self,
    List.replicate_zero, List.append_nil]
  exact c_str_append_of_nulFree hq _

/-- C19 (as amended): when the current PIN has exactly 4 NUL-free characters,
it is unchanged, hence still of 4 characters, after every input that does not
begin with `<pin>-NEWPIN-`; and after `<pin>-NEWPIN-<payload>` it has exactly 4
characters, the first four of the payload, when the payload begins with four
NUL-free characters and the byte `temp[4]` the handler reads without having
written it is NUL. -/
theorem pin_length_kept (m : Mem) (value q r : List Char) (s : State)
    (hp : NulFree s.currentPin) (hp4 : s.currentPin.length = 4) :
    (¬ (s.currentPin ++ sNEWPIN) <+: c_str value →
      (onWrite m value s).currentPin = s.currentPin ∧
      (onWrite m value s).currentPin.length = 4) ∧
    (NulFree q → q.length = 4 → m.temp4 = NUL →
      (onWrite m (s.currentPin ++ sNEWPIN ++ (q ++ r)) s).currentPin = q ∧
      (onWrite m (s.currentPin ++ sNEWPIN ++ (q ++ r)) s).currentPin.length = 4) := by
  constructor
  · intro hn
    rcases onWrite_pin_frame m value s with h | ⟨h, _⟩
    · exact ⟨h, h ▸ hp4⟩
    · exfalso
      apply hn
      have ht : (s.currentPin ++ sNEWPIN).take 12 = s.currentPin ++ sNEWPIN :=
        List.take_of_length_le (by simp [hp4, sNEWPIN])
      rw [c_str_pin_append hp (by decide), ht] at h
      exact h ▸ List.take_prefix _ _
  · intro hq hq4 ht
    rw [onWrite_newpin m s (q ++ r) hp (by omega), newPinTemp_long m r hp4 hq hq4]
    have : c_str [m.temp4] = [] := by rw [ht]; rfl
    simp [pinChanged, this, hq4]

/-- Witness of `pin_length_kept`: the factory state, the inputs `LOCK` and
`1111-NEWPIN-98765`. -/
theorem pin_length_kept_witness :
    ((onWrite ⟨NUL, []⟩ sLOCK (initialState [])).currentPin = (initialState []).currentPin ∧
      (onWrite ⟨NUL, []⟩ sLOCK (initialState [])).currentPin.length = 4) ∧
    ((onWrite ⟨NUL, []⟩ ((initialState []).currentPin ++ sNEWPIN ++
        (['9', '8', '7', '6'] ++ ['5'])) (initialState [])).currentPin = ['9', '8', '7', '6'] ∧
      (onWrite ⟨NUL, []⟩ ((initialState []).currentPin ++ sNEWPIN ++
        (['9', '8', '7', '6'] ++ ['5'])) (initialState [])).currentPin.length = 4) :=
  ⟨(pin_length_kept ⟨NUL, []⟩ sLOCK ['9', '8', '7', '6'] ['5'] (initialState [])
      (by decide) (by decide)).1 (by decide),
    (pin_length_kept ⟨NUL, []⟩ sLOCK ['9', '8', '7', '6'] ['5'] (initialState [])
      (by decide) (by decide)).2 (by decide) (by decide) rfl⟩

/-- C19 fails as stated: from the factory state, whose PIN `1111` has 4
characters, the input `1111-NEWPIN-` leaves the empty PIN, after which the input
`-UNLOCK` is accepted as an Unlock request. -/
theorem pin_length_counterexample :
    (initialState []).currentPin.length = 4 ∧
    (onWrite ⟨NUL, []⟩ (['1', '1', '1', '1'] ++ sNEWPIN) (initialState [])).currentPin = [] ∧
    onWrite ⟨NUL, []⟩ sUNLOCK
        (onWrite ⟨NUL, []⟩ (['1', '1', '1', '1'] ++ sNEWPIN) (initialState [])) =
      unlockAccepted (onWrite ⟨NUL, []⟩ (['1', '1', '1', '1'] ++ sNEWPIN) (initialState [])) := by
  decide

/-! ## Single requests and their polling cycle -/

theorem idle_loop (s : State) : Idle (loop s) := by
  rw [loop_drain]
  exact ⟨rfl, rfl, rfl, rfl⟩

theorem perform_currentPin (a : Action) (t : State) :
    (perform a t).currentPin = t.currentPin := by
  cases a <;> simp only [perform, lock, unlock, adjust] <;> split <;> rfl

theorem foldl_perform_currentPin (l : List Action) (t : State) :
    (l.foldl (fun t a => perform a t) t).currentPin = t.currentPin := by
  induction l generalizing t with
  | nil => rfl
  | cons a l ih => rw [List.foldl_cons, ih, perform_currentPin]

theorem loop_currentPin (s : State) : (loop s).currentPin = s.currentPin := by
  rw [loop_drain]
  exact foldl_perform_currentPin _ _

/-- A serviced `LOCK` leaves the lock locked, whatever was pending. -/
theorem lock_cycle_locked (m : Mem) (s : State) :
    (handleAndPoll m sLOCK s).isLocked = true := by
  unfold handleAndPoll
  rw [onWrite_LOCK]
  obtain ⟨isL, u, l, cw, ccw, rot, pin, name, prefs, tr⟩ := s
  cases u <;> cases cw <;> cases ccw <;> cases isL <;>
    simp [loop, lockAccepted, lock, unlock, adjust, updateStoredStatus, State.emit]

/-- A serviced `LOCK` on an idle, unlocked state writes `locked = true`. -/
theorem lock_cycle_stored (m : Mem) (s : State) (hi : Idle s) (hu : s.isLocked = false) :
    storedLocked (handleAndPoll m sLOCK s).preferences = some (.bool true) := by
  unfold handleAndPoll
  rw [onWrite_LOCK, loop_lock (lockAccepted s) hu rfl hi.2.2.1 hi.2.2.2]
  simp [storedLocked, lookup_put_same]

/-- A serviced `<pin>-UNLOCK` on an idle state leaves the lock unlocked. -/
theorem unlock_cycle_unlocked (m : Mem) (s : State) (hp : NulFree s.currentPin)
    (hi : Idle s) : (handleAndPoll m (s.currentPin ++ sUNLOCK) s).isLocked = false := by
  unfold handleAndPoll
  rw [onWrite_unlock m s hp]
  obtain ⟨isL, u, l, cw, ccw, rot, pin, name, prefs, tr⟩ := s
  obtain ⟨h1, h2, h3, h4⟩ := hi
  simp only at h1 h2 h3 h4
  subst h1 h2 h3 h4
  cases isL <;> simp [loop, unlockAccepted, lock, unlock, updateStoredStatus, State.emit]

/-- A serviced adjustment request on an idle state changes neither the lock
state nor the store nor the PIN. -/
theorem adjust_cycle_frame (d : Mem × Bool) (s : State) (hp : NulFree s.currentPin)
    (hi : Idle s) :
    (handleAndPoll d.1 (adjustInput s d.2) s).isLocked = s.isLocked ∧
    (handleAndPoll d.1 (adjustInput s d.2) s).preferences = s.preferences ∧
    (handleAndPoll d.1 (adjustInput s d.2) s).currentPin = s.currentPin := by
  obtain ⟨m, b⟩ := d
  unfold handleAndPoll adjustInput
  cases b
  · simp only [Bool.false_eq_true, if_false]
    rw [onWrite_cw m s hp]
    obtain ⟨isL, u, l, cw, ccw, rot, pin, name, prefs, tr⟩ := s
    obtain ⟨h1, h2, h3, h4⟩ := hi
    simp only at h1 h2 h3 h4
    subst h1 h2 h3 h4
    simp [loop, cwAccepted, adjust, State.emit]
  · simp only [if_true]
    rw [onWrite_ccw m s hp]
    obtain ⟨isL, u, l, cw, ccw, rot, pin, name, prefs, tr⟩ := s
    obtain ⟨h1, h2, h3, h4⟩ := hi
    simp only at h1 h2 h3 h4
    subst h1 h2 h3 h4
    simp [loop, ccwAccepted, adjust, State.emit]

theorem adjustCycles_frame (ds : List (Mem × Bool)) (s : State) (hp : NulFree s.currentPin)
    (hi : Idle s) :
    Idle (adjustCycles ds s) ∧
    (adjustCycles ds s).isLocked = s.isLocked ∧
    (adjustCycles ds s).preferences = s.preferences ∧
    (adjustCycles ds s).currentPin = s.currentPin := by
  induction ds generalizing s with
  | nil => exact ⟨hi, rfl, rfl, rfl⟩
  | cons d ds ih =>
    obtain ⟨h1, h2, h3⟩ := adjust_cycle_frame d s hp hi
    have hi1 : Idle (handleAndPoll d.1 (adjustInput s d.2) s) := idle_loop _
    obtain ⟨k1, k2, k3, k4⟩ :=
      ih (handleAndPoll d.1 (adjustInput s d.2) s) (by rw [h3]; exact hp) hi1
    unfold adjustCycles at k1 k2 k3 k4 ⊢
    rw [List.foldl_cons]
    exact ⟨k1, k2.trans h1, k3.trans h2, k4.trans h3⟩

/-! ## C11 -/

/-- C11: for every initial state with a NUL-free PIN, whatever its lock state,
and all runs of adjustment requests in between, `LOCK`, `<pin>-UNLOCK` and
`LOCK`, every request serviced in its own polling cycle, end with the lock
locked and with `locked = true` as the bit `updateStoredStatus` persists. -/
theorem lock_unlock_lock_locked (m1 m2 m3 : Mem) (a1 a2 : List (Mem × Bool)) (s : State)
    (hp : NulFree s.currentPin) :
    (lockUnlockLock m1 m2 m3 a1 a2 s).isLocked = true ∧
    storedLocked (lockUnlockLock m1 m2 m3 a1 a2 s).preferences = some (.bool true) := by
  have p1 : (handleAndPoll m1 sLOCK s).currentPin = s.currentPin := by
    unfold handleAndPoll
    rw [loop_currentPin, onWrite_LOCK]
    rfl
  have i1 : Idle (handleAndPoll m1 sLOCK s) := idle_loop _
  obtain ⟨i2, _, _, p2⟩ :=
    adjustCycles_frame a1 (handleAndPoll m1 sLOCK s) (by rw [p1]; exact hp) i1
  have p2s : (adjustCycles a1 (handleAndPoll m1 sLOCK s)).currentPin = s.currentPin :=
    p2.trans p1
  have l3 := unlock_cycle_unlocked m2 (adjustCycles a1 (handleAndPoll m1 sLOCK s))
    (by rw [p2s]; exact hp) i2
  rw [p2s] at l3
  have p3 : (handleAndPoll m2 (s.currentPin ++ sUNLOCK)
      (adjustCycles a1 (handleAndPoll m1 sLOCK s))).currentPin = s.currentPin := by
    unfold handleAndPoll
    rw [loop_currentPin]
    have := onWrite_unlock m2 (adjustCycles a1 (handleAndPoll m1 sLOCK s))
      (by rw [p2s]; exact hp)
    rw [p2s] at this
    unfold handleAndPoll at this p2s
    rw [this]
    exact p2s
  have i3 : Idle (handleAndPoll m2 (s.currentPin ++ sUNLOCK)
      (adjustCycles a1 (handleAndPoll m1 sLOCK s))) := idle_loop _
  obtain ⟨i4, l4, _, _⟩ := adjustCycles_frame a2 _ (by rw [p3]; exact hp) i3
  unfold lockUnlockLock
  exact ⟨lock_cycle_locked m3 _, lock_cycle_stored m3 _ i4 (l4.trans l3)⟩

/-- Witness of `lock_unlock_lock_locked`: the factory state, one CW adjustment
after the first Lock and one CCW adjustment after the Unlock. -/
theorem lock_unlock_lock_locked_witness :
    (lockUnlockLock ⟨NUL, []⟩ ⟨NUL, []⟩ ⟨NUL, []⟩ [(⟨NUL, []⟩, false)] [(⟨NUL, []⟩, true)]
      (initialState [])).isLocked = true ∧
    storedLocked (lockUnlockLock ⟨NUL, []⟩ ⟨NUL, []⟩ ⟨NUL, []⟩ [(⟨NUL, []⟩, false)]
      [(⟨NUL, []⟩, true)] (initialState [])).preferences = some (.bool true) :=
  lock_unlock_lock_locked ⟨NUL, []⟩ ⟨NUL, []⟩ ⟨NUL, []⟩ [(⟨NUL, []⟩, false)] [(⟨NUL, []⟩, true)]
    (initialState []) (by decide)

/-! ## C20 -/

/-- One serviced Lock or Unlock request keeps the rotation count and the
relation between lock state and net displacement, when no adjustment is
pending and both stepper moves are `int`s. -/
theorem lock_cycle_step (d : Mem × Bool) (t : State) (r : Int) (hp : NulFree t.currentPin)
    (hcw : t.cwAdjustmentRequested = false) (hccw : t.ccwAdjustmentRequested = false)
    (hr : t.rotations = r) (hlo : -1048576 < r) (hhi : r < 1048576)
    (hd : displacement t.trace = if t.isLocked then stepsPerRevolution * r else 0) :
    (handleAndPoll d.1 (lockInput t d.2) t).rotations = r ∧
    displacement (handleAndPoll d.1 (lockInput t d.2) t).trace =
      if (handleAndPoll d.1 (lockInput t d.2) t).isLocked then stepsPerRevolution * r else 0 := by
  have hw1 : wrap32 (stepsPerRevolution * r) = stepsPerRevolution * r := by
    unfold wrap32 stepsPerRevolution; omega
  have hw2 : wrap32 (-(stepsPerRevolution * r)) = -(stepsPerRevolution * r) := by
    unfold wrap32 stepsPerRevolution; omega
  obtain ⟨m, b⟩ := d
  unfold handleAndPoll lockInput
  cases b
  · simp only [Bool.false_eq_true, if_false]
    rw [onWrite_unlock m t hp]
    obtain ⟨isL, u, l, cw, ccw, rot, pin, name, prefs, tr⟩ := t
    simp only at hcw hccw hr hd
    subst hcw hccw hr
    cases l <;> cases isL <;>
      simp [loop, unlockAccepted, lock, unlock, updateStoredStatus, State.emit, displacement,
        stepsOf_append, stepsOf, hw1, hw2] at hd ⊢ <;> omega
  · simp only [if_true]
    rw [onWrite_LOCK m t]
    obtain ⟨isL, u, l, cw, ccw, rot, pin, name, prefs, tr⟩ := t
    simp only at hcw hccw hr hd
    subst hcw hccw hr
    cases u <;> cases isL <;>
      simp [loop, lockAccepted, lock, unlock, updateStoredStatus, State.emit, displacement,
        stepsOf_append, stepsOf, hw1, hw2] at hd ⊢ <;> omega

theorem lockInput_accepted_pin (d : Mem × Bool) (t : State) (hp : NulFree t.currentPin) :
    (handleAndPoll d.1 (lockInput t d.2) t).currentPin = t.currentPin := by
  obtain ⟨m, b⟩ := d
  unfold handleAndPoll lockInput
  rw [loop_currentPin]
  cases b
  · simp only [Bool.false_eq_true, if_false]
    rw [onWrite_unlock m t hp]; rfl
  · simp only [if_true]
    rw [onWrite_LOCK m t]; rfl

theorem lockCycles_invariant (ds : List (Mem × Bool)) (t : State) (r : Int)
    (hp : NulFree t.currentPin)
    (hcw : t.cwAdjustmentRequested = false) (hccw : t.ccwAdjustmentRequested = false)
    (hr : t.rotations = r) (hlo : -1048576 < r) (hhi : r < 1048576)
    (hd : displacement t.trace = if t.isLocked then stepsPerRevolution * r else 0) :
    (lockCycles ds t).rotations = r ∧
    displacement (lockCycles ds t).trace =
      if (lockCycles ds t).isLocked then stepsPerRevolution * r else 0 := by
  induction ds generalizing t with
  | nil => exact ⟨hr, hd⟩
  | cons d ds ih =>
    obtain ⟨h1, h2⟩ := lock_cycle_step d t r hp hcw hccw hr hlo hhi hd
    have hpin := lockInput_accepted_pin d t hp
    have hi : Idle (handleAndPoll d.1 (lockInput t d.2) t) := idle_loop _
    have := ih (handleAndPoll d.1 (lockInput t d.2) t) (by rw [hpin]; exact hp)
      hi.2.2.1 hi.2.2.2 h1 h2
    unfold lockCycles at this ⊢
    rw [List.foldl_cons]
    exact this

/-- C20 (as amended): starting unlocked with net stepper displacement 0, no
adjustment pending, a NUL-free PIN and a rotation count `r` with
`-1048576 < r < 1048576` (so that both stepper moves are `int`s), after every
finite run of `LOCK` and `<pin>-UNLOCK` requests, each serviced in its own
polling cycle, the rotation count is still `r` and the net displacement is
`stepsPerRevolution * r` when the lock is locked and 0 when it is unlocked. -/
theorem no_bolt_drift (ds : List (Mem × Bool)) (s : State) (hp : NulFree s.currentPin)
    (hcw : s.cwAdjustmentRequested = false) (hccw : s.ccwAdjustmentRequested = false)
    (hu : s.isLocked = false) (h0 : displacement s.trace = 0)
    (hlo : -1048576 < s.rotations) (hhi : s.rotations < 1048576) :
    (lockCycles ds s).rotations = s.rotations ∧
    displacement (lockCycles ds s).trace =
      if (lockCycles ds s).isLocked then stepsPerRevolution * s.rotations else 0 :=
  lockCycles_invariant ds s s.rotations hp hcw hccw rfl hlo hhi (by rw [h0, hu]; rfl)

/-- Witness of `no_bolt_drift`: the factory state; Lock, Lock, Unlock, Lock. -/
theorem no_bolt_drift_witness :
    (lockCycles [(⟨NUL, []⟩, true), (⟨NUL, []⟩, true), (⟨NUL, []⟩, false), (⟨NUL, []⟩, true)]
      (initialState [])).rotations = (initialState []).rotations ∧
    displacement (lockCycles
      [(⟨NUL, []⟩, true), (⟨NUL, []⟩, true), (⟨NUL, []⟩, false), (⟨NUL, []⟩, true)]
      (initialState [])).trace =
      if (lockCycles
        [(⟨NUL, []⟩, true), (⟨NUL, []⟩, true), (⟨NUL, []⟩, false), (⟨NUL, []⟩, true)]
        (initialState [])).isLocked then stepsPerRevolution * (initialState []).rotations
      else 0 :=
  no_bolt_drift [(⟨NUL, []⟩, true), (⟨NUL, []⟩, true), (⟨NUL, []⟩, false), (⟨NUL, []⟩, true)]
    (initialState []) (by decide) rfl rfl rfl (by decide) (by decide) (by decide)

/-- C20 fails as stated at `r = 1048576`: starting unlocked with displacement
0, one serviced `LOCK` leaves the lock locked with a net displacement of
-2147483648 steps, not `stepsPerRevolution * 1048576`; the `<pin>-UNLOCK` that
follows leaves it unlocked with a net displacement of -4294967296 steps,
not 0. -/
theorem no_bolt_drift_counterexample :
    bigRotations.rotations = 1048576 ∧ bigRotations.isLocked = false ∧
    displacement bigRotations.trace = 0 ∧
    (lockCycles [(⟨NUL, []⟩, true)] bigRotations).isLocked = true ∧
    displacement (lockCycles [(⟨NUL, []⟩, true)] bigRotations).trace = -2147483648 ∧
    (lockCycles [(⟨NUL, []⟩, true), (⟨NUL, []⟩, false)] bigRotations).isLocked = false ∧
    displacement (lockCycles [(⟨NUL, []⟩, true), (⟨NUL, []⟩, false)] bigRotations).trace =
      -4294967296 := by
  decide

end FunLocker
